import Mathlib

/-!
# COpenGLTexture (Irrlicht): a shallow embedding

The definitions follow `source/Irrlicht/COpenGLTexture.cpp` function by function.
Pointers to images become `Option IImage`, the GL context and the driver's
binding cache become an explicit `World` that is threaded through every
operation, and every GL call the source makes is appended to `World.calls`.
Operations that can loop forever or dereference a null image return an
`Outcome`.  `u32` arithmetic wraps at `2^32` where the source can overflow, and
`f32` arithmetic rounds every result to binary32.  `os::Printer::log` and
`testGLError` only write to the log and are left out.
-/

namespace irr
namespace video

/-! ## Enumerations used by the source file -/

/-- Engine colour formats named in the source file. -/
inductive ECOLOR_FORMAT
  | ECF_A1R5G5B5 | ECF_R5G6B5 | ECF_R8G8B8 | ECF_A8R8G8B8
  | ECF_DXT1 | ECF_DXT2 | ECF_DXT3 | ECF_DXT4 | ECF_DXT5
  | ECF_R16F | ECF_G16R16F | ECF_A16B16G16R16F
  | ECF_R32F | ECF_G32R32F | ECF_A32B32G32R32F
  | ECF_R8 | ECF_R8G8 | ECF_R16 | ECF_R16G16
  | ECF_D16 | ECF_D32 | ECF_D24S8
  | ECF_UNKNOWN
  deriving DecidableEq, Repr

/-- Texture creation flags queried through `getTextureCreationFlag`. -/
inductive E_TEXTURE_CREATION_FLAG
  | ETCF_ALWAYS_16_BIT | ETCF_ALWAYS_32_BIT | ETCF_OPTIMIZED_FOR_QUALITY
  | ETCF_OPTIMIZED_FOR_SPEED | ETCF_CREATE_MIP_MAPS | ETCF_NO_ALPHA_CHANNEL
  deriving DecidableEq, Repr

/-- Driver features queried through `queryFeature`. -/
inductive E_VIDEO_DRIVER_FEATURE
  | EVDF_TEXTURE_COMPRESSED_DXT | EVDF_TEXTURE_NPOT
  | EVDF_MIP_MAP_AUTO_UPDATE | EVDF_FRAMEBUFFER_OBJECT
  deriving DecidableEq, Repr

/-- OpenGL extensions queried through `queryOpenGLFeature`. -/
inductive EOpenGLFeatures
  | IRR_EXT_packed_depth_stencil | IRR_ARB_texture_rg | IRR_ARB_half_float_pixel
  | IRR_ARB_texture_float | IRR_MESA_pack_invert
  deriving DecidableEq, Repr

/-- Lock modes of `ITexture::lock`. -/
inductive E_TEXTURE_LOCK_MODE
  | ETLM_READ_WRITE | ETLM_READ_ONLY | ETLM_WRITE_ONLY
  deriving DecidableEq, Repr

/-- Texture clamp modes stored in the states cache. -/
inductive E_TEXTURE_CLAMP
  | ETC_REPEAT | ETC_CLAMP_TO_EDGE
  deriving DecidableEq, Repr

/-- The OpenGL constants the source file names.  Each name is its own value. -/
inductive GLConst
  | GL_RGBA | GL_RGB | GL_BGRA_EXT | GL_BGR
  | GL_UNSIGNED_BYTE | GL_UNSIGNED_SHORT | GL_UNSIGNED_SHORT_1_5_5_5_REV
  | GL_UNSIGNED_SHORT_5_6_5 | GL_UNSIGNED_INT_8_8_8_8_REV
  | GL_COMPRESSED_RGBA_S3TC_DXT1_EXT | GL_COMPRESSED_RGBA_S3TC_DXT3_EXT
  | GL_COMPRESSED_RGBA_S3TC_DXT5_EXT
  | GL_DEPTH_COMPONENT | GL_DEPTH_COMPONENT16 | GL_DEPTH_COMPONENT32
  | GL_DEPTH_STENCIL_EXT | GL_UNSIGNED_INT_24_8_EXT
  | GL_RED | GL_RG | GL_R8 | GL_RG8 | GL_R16 | GL_RG16
  | GL_R16F | GL_RG16F | GL_RGBA16F_ARB | GL_R32F | GL_RG32F | GL_RGBA32F_ARB
  | GL_HALF_FLOAT_ARB | GL_FLOAT
  | GL_SRGB_ALPHA_EXT | GL_SRGB_EXT
  | GL_LINEAR | GL_NEAREST | GL_LINEAR_MIPMAP_NEAREST
  | GL_TEXTURE_2D | GL_TEXTURE_MIN_FILTER | GL_TEXTURE_MAG_FILTER
  | GL_TEXTURE_WRAP_S | GL_TEXTURE_WRAP_T | GL_CLAMP_TO_EDGE
  | GL_GENERATE_MIPMAP | GL_GENERATE_MIPMAP_HINT_SGIS | GL_GENERATE_MIPMAP_HINT
  | GL_FASTEST | GL_NICEST | GL_DONT_CARE | GL_TRUE | GL_FALSE
  | GL_PACK_INVERT_MESA
  deriving DecidableEq, Repr

open ECOLOR_FORMAT E_TEXTURE_CREATION_FLAG E_VIDEO_DRIVER_FEATURE EOpenGLFeatures
open E_TEXTURE_LOCK_MODE E_TEXTURE_CLAMP GLConst

/-! ## The driver, as far as the texture reads it -/

/-- The part of `COpenGLDriver` the texture reads.  The preprocessor symbols that
guard code in the source file are recorded as booleans (`has_...`): they are
fixed when the engine is built against a set of GL headers. -/
structure COpenGLDriver where
  getTextureCreationFlag : E_TEXTURE_CREATION_FLAG → Bool
  queryFeature : E_VIDEO_DRIVER_FEATURE → Bool
  queryOpenGLFeature : EOpenGLFeatures → Bool
  MaxTextureSize : Nat
  Version : Nat
  HandleSRGB : Bool
  getColorFormat : ECOLOR_FORMAT
  has_GL_EXT_packed_depth_stencil : Bool
  has_GL_ARB_half_float_pixel : Bool
  has_GL_framebuffer_sRGB : Bool
  has_GL_SGIS_generate_mipmap : Bool
  has_GL_MESA_pack_invert : Bool

/-! ## getBestColorFormat -/

/-- `COpenGLTexture::getBestColorFormat`. -/
def getBestColorFormat (Driver : COpenGLDriver) (format : ECOLOR_FORMAT) : ECOLOR_FORMAT :=
  let destFormat : ECOLOR_FORMAT :=
    match format with
    | ECF_A1R5G5B5 =>
        if !Driver.getTextureCreationFlag ETCF_ALWAYS_32_BIT then ECF_A1R5G5B5 else ECF_A8R8G8B8
    | ECF_R5G6B5 =>
        if !Driver.getTextureCreationFlag ETCF_ALWAYS_32_BIT then ECF_A1R5G5B5 else ECF_A8R8G8B8
    | ECF_A8R8G8B8 =>
        if Driver.getTextureCreationFlag ETCF_ALWAYS_16_BIT ||
            Driver.getTextureCreationFlag ETCF_OPTIMIZED_FOR_SPEED then ECF_A1R5G5B5
        else ECF_A8R8G8B8
    | ECF_R8G8B8 =>
        if Driver.getTextureCreationFlag ETCF_ALWAYS_16_BIT ||
            Driver.getTextureCreationFlag ETCF_OPTIMIZED_FOR_SPEED then ECF_A1R5G5B5
        else ECF_A8R8G8B8
    | _ => ECF_A8R8G8B8
  if Driver.getTextureCreationFlag ETCF_NO_ALPHA_CHANNEL then
    match destFormat with
    | ECF_A1R5G5B5 => ECF_R5G6B5
    | ECF_A8R8G8B8 => ECF_R8G8B8
    | other => other
  else destFormat

/-! ## getOpenGLFormatAndParametersFromColorFormat -/

/-- The return value and the three reference parameters of
`getOpenGLFormatAndParametersFromColorFormat`. -/
structure GLFormat where
  internalformat : GLConst
  filtering : GLConst
  colorformat : GLConst
  type : GLConst
  deriving DecidableEq, Repr

/-- The values set before the `switch`: the RGBA8 default. -/
def GLFormat.default : GLFormat :=
  { internalformat := GL_RGBA, filtering := GL_LINEAR, colorformat := GL_RGBA,
    type := GL_UNSIGNED_BYTE }

/-- The pixel type of the half-float formats. -/
def halfFloatType (Driver : COpenGLDriver) : GLConst :=
  if Driver.has_GL_ARB_half_float_pixel &&
      Driver.queryOpenGLFeature IRR_ARB_half_float_pixel then GL_HALF_FLOAT_ARB
  else GL_FLOAT

/-- The `switch (format)` of `getOpenGLFormatAndParametersFromColorFormat`. -/
def formatSwitch (Driver : COpenGLDriver) (format : ECOLOR_FORMAT) : GLFormat :=
  let d := GLFormat.default
  match format with
  | ECF_A1R5G5B5 =>
      { d with colorformat := GL_BGRA_EXT, type := GL_UNSIGNED_SHORT_1_5_5_5_REV,
               internalformat := GL_RGBA }
  | ECF_R5G6B5 =>
      { d with colorformat := GL_RGB, type := GL_UNSIGNED_SHORT_5_6_5, internalformat := GL_RGB }
  | ECF_R8G8B8 =>
      { d with colorformat := GL_BGR, type := GL_UNSIGNED_BYTE, internalformat := GL_RGB }
  | ECF_A8R8G8B8 =>
      { d with colorformat := GL_BGRA_EXT,
               type := if Driver.Version > 101 then GL_UNSIGNED_INT_8_8_8_8_REV else d.type,
               internalformat := GL_RGBA }
  | ECF_DXT1 =>
      { d with colorformat := GL_BGRA_EXT, type := GL_COMPRESSED_RGBA_S3TC_DXT1_EXT,
               internalformat := GL_COMPRESSED_RGBA_S3TC_DXT1_EXT }
  | ECF_DXT2 | ECF_DXT3 =>
      { d with colorformat := GL_BGRA_EXT, type := GL_COMPRESSED_RGBA_S3TC_DXT3_EXT,
               internalformat := GL_COMPRESSED_RGBA_S3TC_DXT3_EXT }
  | ECF_DXT4 | ECF_DXT5 =>
      { d with colorformat := GL_BGRA_EXT, type := GL_COMPRESSED_RGBA_S3TC_DXT5_EXT,
               internalformat := GL_COMPRESSED_RGBA_S3TC_DXT5_EXT }
  | ECF_D16 =>
      { d with colorformat := GL_DEPTH_COMPONENT, type := GL_UNSIGNED_BYTE,
               internalformat := GL_DEPTH_COMPONENT16 }
  | ECF_D32 =>
      { d with colorformat := GL_DEPTH_COMPONENT, type := GL_UNSIGNED_BYTE,
               internalformat := GL_DEPTH_COMPONENT32 }
  | ECF_D24S8 =>
      if Driver.has_GL_EXT_packed_depth_stencil &&
          Driver.queryOpenGLFeature IRR_EXT_packed_depth_stencil then
        { d with colorformat := GL_DEPTH_STENCIL_EXT, type := GL_UNSIGNED_INT_24_8_EXT,
                 internalformat := GL_DEPTH_STENCIL_EXT }
      else d
  | ECF_R8 =>
      if Driver.queryOpenGLFeature IRR_ARB_texture_rg then
        { d with colorformat := GL_RED, type := GL_UNSIGNED_BYTE, internalformat := GL_R8 }
      else d
  | ECF_R8G8 =>
      if Driver.queryOpenGLFeature IRR_ARB_texture_rg then
        { d with colorformat := GL_RG, type := GL_UNSIGNED_BYTE, internalformat := GL_RG8 }
      else d
  | ECF_R16 =>
      if Driver.queryOpenGLFeature IRR_ARB_texture_rg then
        { d with colorformat := GL_RED, type := GL_UNSIGNED_SHORT, internalformat := GL_R16 }
      else d
  | ECF_R16G16 =>
      if Driver.queryOpenGLFeature IRR_ARB_texture_rg then
        { d with colorformat := GL_RG, type := GL_UNSIGNED_SHORT, internalformat := GL_RG16 }
      else d
  | ECF_R16F =>
      if Driver.queryOpenGLFeature IRR_ARB_texture_rg then
        { d with filtering := GL_NEAREST, colorformat := GL_RED, internalformat := GL_R16F,
                 type := halfFloatType Driver }
      else d
  | ECF_G16R16F =>
      if Driver.queryOpenGLFeature IRR_ARB_texture_rg then
        { d with filtering := GL_NEAREST, colorformat := GL_RG, internalformat := GL_RG16F,
                 type := halfFloatType Driver }
      else d
  | ECF_A16B16G16R16F =>
      if Driver.queryOpenGLFeature IRR_ARB_texture_float then
        { d with filtering := GL_NEAREST, colorformat := GL_RGBA,
                 internalformat := GL_RGBA16F_ARB, type := halfFloatType Driver }
      else d
  | ECF_R32F =>
      if Driver.queryOpenGLFeature IRR_ARB_texture_rg then
        { d with filtering := GL_NEAREST, colorformat := GL_RED, internalformat := GL_R32F,
                 type := GL_FLOAT }
      else d
  | ECF_G32R32F =>
      if Driver.queryOpenGLFeature IRR_ARB_texture_rg then
        { d with filtering := GL_NEAREST, colorformat := GL_RG, internalformat := GL_RG32F,
                 type := GL_FLOAT }
      else d
  | ECF_A32B32G32R32F =>
      if Driver.queryOpenGLFeature IRR_ARB_texture_float then
        { d with filtering := GL_NEAREST, colorformat := GL_RGBA,
                 internalformat := GL_RGBA32F_ARB, type := GL_FLOAT }
      else d
  | ECF_UNKNOWN => d

/-- The sRGB remapping applied to the internal format after the `switch`. -/
def srgbRemap (Driver : COpenGLDriver) (internalformat : GLConst) : GLConst :=
  if Driver.has_GL_framebuffer_sRGB && Driver.HandleSRGB then
    if internalformat = GL_RGBA then GL_SRGB_ALPHA_EXT
    else if internalformat = GL_RGB then GL_SRGB_EXT
    else internalformat
  else internalformat

/-- `COpenGLTexture::getOpenGLFormatAndParametersFromColorFormat`. -/
def getOpenGLFormatAndParametersFromColorFormat (Driver : COpenGLDriver)
    (format : ECOLOR_FORMAT) : GLFormat :=
  let r := formatSwitch Driver format
  { r with internalformat := srgbRemap Driver r.internalformat }

/-! ## Images -/

/-- `core::dimension2d<u32>`; `operator==` is structural equality. -/
structure dimension2d where
  Width : Nat
  Height : Nat
  deriving DecidableEq, Repr

/-- Truncation of an unsigned result to 32 bits. -/
def u32 (n : Nat) : Nat := n % 2 ^ 32

/-- The loop `while (i < n) i <<= 1` of `getOptimalSize`; `n` steps of fuel are enough. -/
def pow2AtLeast : Nat → Nat → Nat → Nat
  | 0, i, _ => i
  | fuel + 1, i, n => if i < n then pow2AtLeast fuel (i <<< 1) n else i

/-- Modelled from the spec: `dimension2d::getOptimalSize(requirePowerOfTwo)` lives in
`dimension2d.h`, outside this file.  The size is rounded up to the next power of two when a
power of two is required and is left as it is otherwise. -/
def dimension2d.getOptimalSize (d : dimension2d) (requirePowerOfTwo : Bool) : dimension2d :=
  if requirePowerOfTwo then
    { Width := pow2AtLeast d.Width 1 d.Width, Height := pow2AtLeast d.Height 1 d.Height }
  else d

/-- Modelled from the spec: `IImage::isCompressedFormat` lives in `IImage.h`, outside this
file.  The block-compressed formats are the DXT variants. -/
def isCompressedFormat (format : ECOLOR_FORMAT) : Bool :=
  match format with
  | ECF_DXT1 | ECF_DXT2 | ECF_DXT3 | ECF_DXT4 | ECF_DXT5 => true
  | _ => false

/-- Modelled from the spec: `IImage::getBitsPerPixelFromFormat` lives in `IImage.h`, outside
this file.  In this file `createImage` is only reached with the four packed formats. -/
def getBitsPerPixelFromFormat (format : ECOLOR_FORMAT) : Nat :=
  match format with
  | ECF_A1R5G5B5 | ECF_R5G6B5 => 16
  | ECF_R8G8B8 => 24
  | ECF_A8R8G8B8 => 32
  | ECF_DXT1 => 16
  | ECF_DXT2 | ECF_DXT3 | ECF_DXT4 | ECF_DXT5 => 32
  | ECF_R8 => 8
  | ECF_R8G8 | ECF_R16 | ECF_R16F | ECF_D16 => 16
  | ECF_R16G16 | ECF_G16R16F | ECF_R32F | ECF_D32 | ECF_D24S8 => 32
  | ECF_A16B16G16R16F | ECF_G32R32F => 64
  | ECF_A32B32G32R32F => 128
  | ECF_UNKNOWN => 0

/-- A CPU image (`IImage`): what `getColorFormat`, `getDimension`, `getBytesPerPixel`,
`getPitch`, `hasMipMaps` and `lock` return.  `Data` is the byte buffer behind `lock()`. -/
structure IImage where
  Format : ECOLOR_FORMAT
  Size : dimension2d
  BytesPerPixel : Nat
  Pitch : Nat
  MipMaps : Bool
  Data : List Nat
  deriving DecidableEq, Repr

/-- Modelled from the spec: `Driver->createImage(format, size)` allocates a CPU buffer of
the given size.  The bytes of a new buffer are unspecified in the engine; they are zero here
and no theorem reads them. -/
def createImage (format : ECOLOR_FORMAT) (size : dimension2d) : IImage :=
  let bpp := getBitsPerPixelFromFormat format / 8
  { Format := format, Size := size, BytesPerPixel := bpp, Pitch := bpp * size.Width,
    MipMaps := false, Data := List.replicate (bpp * size.Width * size.Height) 0 }

/-- The pixel conversions of `IImage`, whose code is outside this file; each gives the bytes
found in the target afterwards.  `copyTo src dst` is `src->copyTo(dst)`, `copyToScaling src
dst` is `src->copyToScaling(dst)` and `copyToScalingRaw src w h f` is
`src->copyToScaling(target, w, h, f)`. -/
structure ImageOps where
  copyTo : IImage → IImage → List Nat
  copyToScaling : IImage → IImage → List Nat
  copyToScalingRaw : IImage → Nat → Nat → ECOLOR_FORMAT → List Nat

/-! ## The GL context and the binding cache -/

/-- The GL and extension calls the source file makes, with their arguments (the texture
target `GL_TEXTURE_2D`, the border and the offsets, which are constant, are left out of the
upload calls). -/
inductive GLCall
  | glGenTextures (name : Nat)
  | glBindTexture (name : Nat)
  | glTexParameteri (target pname param : GLConst)
  | glHint (target mode : GLConst)
  | glEnable (cap : GLConst)
  | glPixelStorei (pname param : GLConst)
  | glTexImage2D (level : Nat) (internalformat : GLConst) (width height : Nat)
      (format type : GLConst) (pixels : Option (List Nat))
  | glTexSubImage2D (level width height : Nat) (format type : GLConst) (pixels : List Nat)
  | extGlCompressedTexImage2D (level : Nat) (internalformat : GLConst)
      (width height imageSize : Nat) (data : List Nat)
  | extGlCompressedTexSubImage2D (level width height : Nat) (format : GLConst)
      (imageSize : Nat) (data : List Nat)
  | glGetTexImage (level : Nat) (format type : GLConst)
  | extGlGenerateMipmap (target : GLConst)
  deriving DecidableEq, Repr

/-- The calls that send pixel data to the GPU. -/
def GLCall.isUpload : GLCall → Bool
  | .glTexImage2D .. => true
  | .glTexSubImage2D .. => true
  | .extGlCompressedTexImage2D .. => true
  | .extGlCompressedTexSubImage2D .. => true
  | _ => false

/-- The calls that read pixel data back from the GPU. -/
def GLCall.isReadback : GLCall → Bool
  | .glGetTexImage .. => true
  | _ => false

/-- A `COpenGLTexture*` as the binding cache holds it: the object and the GL name it
carries. -/
structure TexHandle where
  This : Nat
  TextureName : Nat
  deriving DecidableEq, Repr

/-- The state outside the texture object: the driver's binding cache
(`bridgeCalls->TextureCache`), the GL 2D texture binding, the `GL_PACK_INVERT_MESA` pixel
store flag, the GPU store (texture name and level to the bytes last uploaded), the number of
names `glGenTextures` has handed out, and the calls made so far. -/
structure World where
  TextureCache : Nat → Option TexHandle
  boundTexture : Nat
  packInvert : Bool
  texImage : Nat → Nat → List Nat
  genCount : Nat
  calls : List GLCall

/-- Record a call. -/
def World.emit (w : World) (c : GLCall) : World :=
  { w with calls := w.calls ++ [c] }

/-- Modelled from the spec: `TextureCache.set(index, texture)` of the call bridge lives in
`COpenGLDriver.h`, outside this file.  It records the texture in the slot and makes it the
bound texture (no texture binds name 0). -/
def World.TextureCache_set (w : World) (index : Nat) (texture : Option TexHandle) : World :=
  { w with
    TextureCache := fun i => if i = index then texture else w.TextureCache i,
    boundTexture := match texture with
      | some t => t.TextureName
      | none => 0 }

/-- `glGenTextures(1, &TextureName)`: a fresh name, never 0. -/
def World.glGenTextures (w : World) : Nat × World :=
  (w.genCount + 1,
    { w with genCount := w.genCount + 1,
             calls := w.calls ++ [GLCall.glGenTextures (w.genCount + 1)] })

/-- `glBindTexture(GL_TEXTURE_2D, name)`. -/
def World.glBindTexture (w : World) (name : Nat) : World :=
  { w with boundTexture := name, calls := w.calls ++ [GLCall.glBindTexture name] }

/-- Store `data` as the contents of `level` of the bound texture. -/
def World.store (w : World) (level : Nat) (data : List Nat) : World :=
  { w with texImage := fun n l =>
      if n = w.boundTexture ∧ l = level then data else w.texImage n l }

/-- `glTexImage2D(GL_TEXTURE_2D, level, internalformat, width, height, 0, format, type,
pixels)`. -/
def World.glTexImage2D (w : World) (level : Nat) (internalformat : GLConst)
    (width height : Nat) (format type : GLConst) (pixels : Option (List Nat)) : World :=
  (w.store level (pixels.getD [])).emit
    (GLCall.glTexImage2D level internalformat width height format type pixels)

/-- `glTexSubImage2D(GL_TEXTURE_2D, level, 0, 0, width, height, format, type, pixels)`. -/
def World.glTexSubImage2D (w : World) (level width height : Nat) (format type : GLConst)
    (pixels : List Nat) : World :=
  (w.store level pixels).emit (GLCall.glTexSubImage2D level width height format type pixels)

/-- `extGlCompressedTexImage2D(GL_TEXTURE_2D, level, internalformat, width, height, 0,
imageSize, data)`. -/
def World.extGlCompressedTexImage2D (w : World) (level : Nat) (internalformat : GLConst)
    (width height imageSize : Nat) (data : List Nat) : World :=
  (w.store level data).emit
    (GLCall.extGlCompressedTexImage2D level internalformat width height imageSize data)

/-- `extGlCompressedTexSubImage2D(GL_TEXTURE_2D, level, 0, 0, width, height, format,
imageSize, data)`. -/
def World.extGlCompressedTexSubImage2D (w : World) (level width height : Nat)
    (format : GLConst) (imageSize : Nat) (data : List Nat) : World :=
  (w.store level data).emit
    (GLCall.extGlCompressedTexSubImage2D level width height format imageSize data)

/-- Row `r` of a buffer of rows of `pitch` bytes. -/
def rowOf (pitch : Nat) (buf : List Nat) (r : Nat) : List Nat :=
  (buf.drop (r * pitch)).take pitch

/-- The rows of a buffer in reverse order. -/
def reverseRows (pitch height : Nat) (buf : List Nat) : List Nat :=
  (((List.range height).map (rowOf pitch buf)).reverse).flatten

/-- `glGetTexImage(GL_TEXTURE_2D, level, format, type, pixels)`: the bytes of `level` of the
bound texture are written over the start of `pixels`, in the order they were uploaded, or
with the rows reversed while `GL_PACK_INVERT_MESA` is set. -/
def World.glGetTexImage (w : World) (level : Nat) (format type : GLConst)
    (pitch height : Nat) (pixels : List Nat) : List Nat × World :=
  let stored := w.texImage w.boundTexture level
  let sent := if w.packInvert then reverseRows pitch height stored else stored
  (sent.take pixels.length ++ pixels.drop sent.length,
    w.emit (GLCall.glGetTexImage level format type))

/-- `glPixelStorei(GL_PACK_INVERT_MESA, param)`. -/
def World.glPixelStorei_PACK_INVERT (w : World) (param : Bool) : World :=
  { w with packInvert := param,
           calls := w.calls ++
             [GLCall.glPixelStorei GL_PACK_INVERT_MESA (if param then GL_TRUE else GL_FALSE)] }

/-! ## The texture object -/

/-- `COpenGLTexture::SStatesCache`, as far as this file writes it. -/
structure SStatesCache where
  BilinearFilter : Bool
  TrilinearFilter : Bool
  MipMapStatus : Bool
  WrapU : E_TEXTURE_CLAMP
  WrapV : E_TEXTURE_CLAMP
  deriving DecidableEq, Repr

/-- The members of `COpenGLTexture` (with those of `ITexture` it uses).  `This` stands for
the address of the object. -/
structure COpenGLTexture where
  This : Nat
  OriginalSize : dimension2d
  Size : dimension2d
  Pitch : Nat
  ColorFormat : ECOLOR_FORMAT
  HasAlpha : Bool
  HasMipMaps : Bool
  IsRenderTarget : Bool
  Image : Option IImage
  MipImage : Option IImage
  TextureName : Nat
  InternalFormat : GLConst
  PixelFormat : GLConst
  PixelType : GLConst
  MipLevelStored : Nat
  MipmapLegacyMode : Bool
  IsCompressed : Bool
  AutomaticMipmapUpdate : Bool
  ReadOnlyLock : Bool
  KeepImage : Bool
  StatesCache : SStatesCache
  deriving DecidableEq, Repr

/-- Why a call does not return: a null image pointer is dereferenced, a loop never ends, or
`new` is asked for an array of negative length and throws. -/
inductive Fault
  | nullImage
  | diverges
  | badAlloc
  deriving DecidableEq, Repr

/-- The result of a call that may not return. -/
inductive Outcome (α : Type)
  | ok (a : α)
  | fault (f : Fault)
  deriving DecidableEq, Repr

/-- The handle under which the binding cache holds this texture. -/
def COpenGLTexture.handle (s : COpenGLTexture) : TexHandle :=
  { This := s.This, TextureName := s.TextureName }

/-! ## getImageValues -/

/-- Round a rational to the nearest integer, a tie going to the even one. -/
def roundHalfEven (q : ℚ) : ℤ :=
  if q - ⌊q⌋ < 1 / 2 then ⌊q⌋
  else if 1 / 2 < q - ⌊q⌋ then ⌊q⌋ + 1
  else if ⌊q⌋ % 2 = 0 then ⌊q⌋ else ⌊q⌋ + 1

/-- The value of type `f32` (IEEE binary32) that a non-negative real result is rounded to:
the 24-bit significand nearest to it, a tie going to the even one, at the exponent
`Int.log 2 q` of the value.  The exponent is not bounded, so this is binary32 for values in
the normal range from 2^-126 up to 2^128, which holds every value `getImageValues` computes
from `u32` operands; the values rounded there are never negative. -/
def f32 (q : ℚ) : ℚ :=
  if q ≤ 0 then 0
  else (roundHalfEven (q / 2 ^ (Int.log 2 q - 23)) : ℚ) * 2 ^ (Int.log 2 q - 23)

/-- The clamp of `getImageValues` (the lines between the zero-size test and
`getOptimalSize`), for a size with non-zero height.  `(f32)W / (f32)H` converts both
operands and rounds the quotient; `MaxTextureSize / ratio` and `MaxTextureSize * ratio`
convert `MaxTextureSize` and round the result, each operation to binary32; the `(u32)` cast
takes the integer part (for a `MaxTextureSize` of at most 2^24 the value cast is at most
`MaxTextureSize`, see `clampOriginalSize_spec`, so it is in the range of `u32`). -/
def clampOriginalSize (MaxTextureSize : Nat) (OriginalSize : dimension2d) : dimension2d :=
  let ratio : ℚ := f32 (f32 (OriginalSize.Width : ℚ) / f32 (OriginalSize.Height : ℚ))
  if OriginalSize.Width > MaxTextureSize ∧ ratio ≥ 1 then
    { Width := MaxTextureSize, Height := ⌊f32 (f32 (MaxTextureSize : ℚ) / ratio)⌋₊ }
  else if OriginalSize.Height > MaxTextureSize then
    { Height := MaxTextureSize, Width := ⌊f32 (f32 (MaxTextureSize : ℚ) * ratio)⌋₊ }
  else OriginalSize

/-- `COpenGLTexture::getImageValues`. -/
def getImageValues (Driver : COpenGLDriver) (s : COpenGLTexture) (image : Option IImage) :
    COpenGLTexture :=
  match image with
  | none => s
  | some image =>
    let s := { s with OriginalSize := image.Size }
    if s.OriginalSize.Width = 0 ∨ s.OriginalSize.Height = 0 then s
    else
      let s := { s with OriginalSize := clampOriginalSize Driver.MaxTextureSize s.OriginalSize }
      let s := { s with
        Size := s.OriginalSize.getOptimalSize (!Driver.queryFeature EVDF_TEXTURE_NPOT) }
      if isCompressedFormat image.Format then { s with ColorFormat := image.Format }
      else { s with ColorFormat := getBestColorFormat Driver image.Format }

/-! ## regenerateMipMapLevels -/

/-- The size in bytes of a block-compressed level, in `u32` arithmetic; it stays 0 for a
format that is not DXT. -/
def compressedDataSize (ColorFormat : ECOLOR_FORMAT) (width height : Nat) : Nat :=
  if ColorFormat = ECF_DXT1 then
    u32 (u32 (u32 (width + 3) / 4 * (u32 (height + 3) / 4)) * 8)
  else if ColorFormat = ECF_DXT2 ∨ ColorFormat = ECF_DXT3 ∨ ColorFormat = ECF_DXT4 ∨
      ColorFormat = ECF_DXT5 then
    u32 (u32 (u32 (width + 3) / 4 * (u32 (height + 3) / 4)) * 16)
  else 0

/-- The number of bytes by which the mip loop advances `mipmapData` after a level of the
given size: `compressedDataSize` for a compressed texture, else
`width*height*Image->getBytesPerPixel()` in `u32` arithmetic. -/
def mipStride (s : COpenGLTexture) (Image : IImage) (width height : Nat) : Nat :=
  if s.IsCompressed then compressedDataSize s.ColorFormat width height
  else u32 (u32 (width * height) * Image.BytesPerPixel)

/-- The upload of one level inside the mip loop.  `mipmapData` is the rest of the prepared
byte stream (`none` for a null pointer); a level takes as many bytes from it as the pointer is
advanced by.  Without prepared data the level is the scaled copy of `Image`. -/
def mipUpload (ops : ImageOps) (s : COpenGLTexture) (Image : IImage) (width height i : Nat)
    (mipmapData : Option (List Nat)) (w : World) : World :=
  let target : List Nat :=
    match mipmapData with
    | none => ops.copyToScalingRaw Image width height Image.Format
    | some d => d.take (mipStride s Image width height)
  if s.IsCompressed then
    w.extGlCompressedTexImage2D i s.InternalFormat width height
      (compressedDataSize s.ColorFormat width height) target
  else
    w.glTexImage2D i s.InternalFormat width height s.PixelFormat s.PixelType (some target)

/-- The `do ... while (width!=1 || height!=1)` loop of `regenerateMipMapLevels`.  The loop
diverges when the fuel runs out. -/
def mipLoop (ops : ImageOps) (s : COpenGLTexture) (Image : IImage) :
    Nat → Nat → Nat → Nat → Option (List Nat) → World → Outcome World
  | 0, _, _, _, _, _ => Outcome.fault Fault.diverges
  | fuel + 1, width, height, i, mipmapData, w =>
    let width := if width > 1 then width >>> 1 else width
    let height := if height > 1 then height >>> 1 else height
    let i := i + 1
    let w := mipUpload ops s Image width height i mipmapData w
    let mipmapData := mipmapData.map (fun d => d.drop (mipStride s Image width height))
    if width ≠ 1 ∨ height ≠ 1 then mipLoop ops s Image fuel width height i mipmapData w
    else Outcome.ok w

/-- `COpenGLTexture::regenerateMipMapLevels`.  With both dimensions at least 1 the loop
ends within `Width + Height` rounds; with a zero dimension it never ends. -/
def regenerateMipMapLevels (ops : ImageOps) (s : COpenGLTexture) (w : World)
    (mipmapData : Option (List Nat)) : Outcome World :=
  if !s.HasMipMaps then Outcome.ok w
  else if mipmapData.isNone && s.IsCompressed then Outcome.ok w
  else if mipmapData.isNone && (s.AutomaticMipmapUpdate && s.MipmapLegacyMode) then Outcome.ok w
  else if mipmapData.isNone && (!s.AutomaticMipmapUpdate &&
      (match s.Image with
       | none => true
       | some Image => Image.Size.Width == 1 && Image.Size.Height == 1)) then Outcome.ok w
  else if mipmapData.isNone && s.AutomaticMipmapUpdate && !s.MipmapLegacyMode then
    Outcome.ok ((w.emit (GLCall.glEnable GL_TEXTURE_2D)).emit
      (GLCall.extGlGenerateMipmap GL_TEXTURE_2D))
  else
    match s.Image with
    | none => Outcome.fault Fault.nullImage
    | some Image =>
      mipLoop ops s Image (Image.Size.Width + Image.Size.Height)
        Image.Size.Width Image.Size.Height 0 mipmapData w

/-! ## uploadTexture -/

/-- The mode passed to `glHint` for mipmap generation. -/
def mipmapHintMode (Driver : COpenGLDriver) : GLConst :=
  if Driver.getTextureCreationFlag ETCF_OPTIMIZED_FOR_SPEED then GL_FASTEST
  else if Driver.getTextureCreationFlag ETCF_OPTIMIZED_FOR_QUALITY then GL_NICEST
  else GL_DONT_CARE

/-- The block `if (!level && newTexture)` before the upload: the automatic mipmap set-up
and the bilinear filter. -/
def uploadMipmapSetup (Driver : COpenGLDriver) (s : COpenGLTexture) (w : World)
    (mipmapData : Option (List Nat)) : COpenGLTexture × World :=
  let sw : COpenGLTexture × World :=
    if !s.IsCompressed && s.HasMipMaps && mipmapData.isNone &&
        Driver.queryFeature EVDF_MIP_MAP_AUTO_UPDATE then
      if !Driver.queryFeature EVDF_FRAMEBUFFER_OBJECT then
        if Driver.has_GL_SGIS_generate_mipmap then
          ({ s with MipmapLegacyMode := true, AutomaticMipmapUpdate := true },
            (w.emit (GLCall.glHint GL_GENERATE_MIPMAP_HINT_SGIS (mipmapHintMode Driver))).emit
              (GLCall.glTexParameteri GL_TEXTURE_2D GL_GENERATE_MIPMAP GL_TRUE))
        else (s, w)
      else
        ({ s with MipmapLegacyMode := false, AutomaticMipmapUpdate := true },
          w.emit (GLCall.glHint GL_GENERATE_MIPMAP_HINT (mipmapHintMode Driver)))
    else (s, w)
  ({ sw.1 with StatesCache := { sw.1.StatesCache with
        BilinearFilter := true, TrilinearFilter := false, MipMapStatus := false } },
    (sw.2.emit (GLCall.glTexParameteri GL_TEXTURE_2D GL_TEXTURE_MIN_FILTER GL_LINEAR)).emit
      (GLCall.glTexParameteri GL_TEXTURE_2D GL_TEXTURE_MAG_FILTER GL_LINEAR))

/-- The upload call of `uploadTexture` for `image`. -/
def uploadImage (s : COpenGLTexture) (w : World) (image : IImage) (newTexture : Bool)
    (level : Nat) : World :=
  let cds := compressedDataSize s.ColorFormat image.Size.Width image.Size.Height
  let source := image.Data
  if newTexture then
    if s.IsCompressed then
      w.extGlCompressedTexImage2D 0 s.InternalFormat image.Size.Width image.Size.Height cds
        source
    else
      w.glTexImage2D level s.InternalFormat image.Size.Width image.Size.Height s.PixelFormat
        s.PixelType (some source)
  else
    if s.IsCompressed then
      w.extGlCompressedTexSubImage2D level image.Size.Width image.Size.Height s.PixelFormat cds
        source
    else
      w.glTexSubImage2D level image.Size.Width image.Size.Height s.PixelFormat s.PixelType
        source

/-- The block `if (!level && newTexture)` after the upload: mipmap regeneration and the
mipmap filter. -/
def uploadMipmaps (ops : ImageOps) (s : COpenGLTexture) (w : World) (image : IImage)
    (mipmapData : Option (List Nat)) : Outcome (COpenGLTexture × World) :=
  let cds := if s.IsCompressed then
      compressedDataSize s.ColorFormat image.Size.Width image.Size.Height else 0
  let sm : COpenGLTexture × Option (List Nat) :=
    if s.IsCompressed && mipmapData.isNone then
      if image.MipMaps then (s, some (image.Data.drop cds))
      else ({ s with HasMipMaps := false }, mipmapData)
    else (s, mipmapData)
  match regenerateMipMapLevels ops sm.1 w sm.2 with
  | Outcome.fault f => Outcome.fault f
  | Outcome.ok w =>
    if sm.1.HasMipMaps then
      Outcome.ok
        ({ sm.1 with StatesCache := { sm.1.StatesCache with
              BilinearFilter := true, TrilinearFilter := false, MipMapStatus := true } },
          (w.emit (GLCall.glTexParameteri GL_TEXTURE_2D GL_TEXTURE_MIN_FILTER
              GL_LINEAR_MIPMAP_NEAREST)).emit
            (GLCall.glTexParameteri GL_TEXTURE_2D GL_TEXTURE_MAG_FILTER GL_LINEAR))
    else Outcome.ok (sm.1, w)

/-- `COpenGLTexture::uploadTexture(newTexture, mipmapData, level)`. -/
def uploadTexture (ops : ImageOps) (Driver : COpenGLDriver) (s : COpenGLTexture) (w : World)
    (newTexture : Bool) (mipmapData : Option (List Nat)) (level : Nat) :
    Outcome (COpenGLTexture × World) :=
  match (if level ≠ 0 then s.MipImage else s.Image) with
  | none => Outcome.ok (s, w)
  | some image =>
    let prevTexture := w.TextureCache 0
    let oldInternalFormat := s.InternalFormat
    let f := getOpenGLFormatAndParametersFromColorFormat Driver s.ColorFormat
    let s := { s with
      InternalFormat := if !newTexture then oldInternalFormat else f.internalformat,
      PixelFormat := f.colorformat, PixelType := f.type }
    let w := w.TextureCache_set 0 (some s.handle)
    let sw : COpenGLTexture × World :=
      if level = 0 ∧ newTexture then uploadMipmapSetup Driver s w mipmapData else (s, w)
    let w := uploadImage sw.1 sw.2 image newTexture level
    let r : Outcome (COpenGLTexture × World) :=
      if level = 0 ∧ newTexture then uploadMipmaps ops sw.1 w image mipmapData
      else Outcome.ok (sw.1, w)
    match r with
    | Outcome.fault f => Outcome.fault f
    | Outcome.ok (s, w) => Outcome.ok (s, w.TextureCache_set 0 prevTexture)

/-! ## Constructors -/

/-- The members as the initialiser list of the image constructor leaves them (the members of
`ITexture` start empty). -/
def COpenGLTexture.init (This : Nat) (MipmapLegacyMode KeepImage : Bool) : COpenGLTexture :=
  { This := This, OriginalSize := ⟨0, 0⟩, Size := ⟨0, 0⟩, Pitch := 0,
    ColorFormat := ECF_UNKNOWN, HasAlpha := false, HasMipMaps := false,
    IsRenderTarget := false, Image := none, MipImage := none, TextureName := 0,
    InternalFormat := GL_RGBA, PixelFormat := GL_BGRA_EXT, PixelType := GL_UNSIGNED_BYTE,
    MipLevelStored := 0, MipmapLegacyMode := MipmapLegacyMode, IsCompressed := false,
    AutomaticMipmapUpdate := false, ReadOnlyLock := false, KeepImage := KeepImage,
    StatesCache := { BilinearFilter := false, TrilinearFilter := false, MipMapStatus := false,
                     WrapU := ETC_REPEAT, WrapV := ETC_REPEAT } }

/-- The `switch (ColorFormat)` of the image constructor that sets `HasAlpha`. -/
def hasAlphaOfImageFormat (ColorFormat : ECOLOR_FORMAT) : Bool :=
  match ColorFormat with
  | ECF_A8R8G8B8 | ECF_A1R5G5B5 | ECF_DXT1 | ECF_DXT2 | ECF_DXT3 | ECF_DXT4 | ECF_DXT5
  | ECF_A16B16G16R16F | ECF_A32B32G32R32F => true
  | _ => false

/-- The end of the image constructor, from `Pitch = Image->getPitch()` on. -/
def constructFinish (ops : ImageOps) (Driver : COpenGLDriver) (s : COpenGLTexture) (w : World)
    (mipmapData : Option (List Nat)) : Outcome (COpenGLTexture × World) :=
  match s.Image with
  | none => Outcome.fault Fault.nullImage
  | some Image =>
    let s := { s with Pitch := Image.Pitch }
    let nw := w.glGenTextures
    let s := { s with TextureName := nw.1 }
    match uploadTexture ops Driver s nw.2 true mipmapData 0 with
    | Outcome.fault f => Outcome.fault f
    | Outcome.ok (s, w) =>
      if !s.KeepImage then Outcome.ok ({ s with Image := none }, w) else Outcome.ok (s, w)

/-- The constructor for standard textures,
`COpenGLTexture(IImage* origImage, name, void* mipmapData, COpenGLDriver* driver)`. -/
def COpenGLTexture.ofImage (ops : ImageOps) (Driver : COpenGLDriver) (This : Nat) (w : World)
    (origImage : Option IImage) (mipmapData : Option (List Nat)) :
    Outcome (COpenGLTexture × World) :=
  let s := COpenGLTexture.init This true true
  let s := { s with ColorFormat := ECF_A8R8G8B8,
                    HasMipMaps := Driver.getTextureCreationFlag ETCF_CREATE_MIP_MAPS,
                    IsRenderTarget := false }
  let s := getImageValues Driver s origImage
  let s := if hasAlphaOfImageFormat s.ColorFormat then { s with HasAlpha := true } else s
  if isCompressedFormat s.ColorFormat then
    if !Driver.queryFeature EVDF_TEXTURE_COMPRESSED_DXT then Outcome.ok (s, w)
    else if s.OriginalSize ≠ s.Size then Outcome.ok (s, w)
    else
      match origImage with
      | none => Outcome.fault Fault.nullImage
      | some orig =>
        constructFinish ops Driver
          { s with IsCompressed := true, Image := some orig, KeepImage := false } w mipmapData
  else if s.OriginalSize = s.Size then
    let Image := createImage s.ColorFormat s.OriginalSize
    match origImage with
    | none => Outcome.fault Fault.nullImage
    | some orig =>
      constructFinish ops Driver
        { s with Image := some { Image with Data := ops.copyTo orig Image } } w mipmapData
  else
    let Image := createImage s.ColorFormat s.Size
    match origImage with
    | none => Outcome.fault Fault.nullImage
    | some orig =>
      constructFinish ops Driver
        { s with Image := some { Image with Data := ops.copyToScaling orig Image } } w mipmapData

/-- The `switch (ColorFormat)` of the render target constructor that sets `HasAlpha`. -/
def hasAlphaOfTargetFormat (ColorFormat : ECOLOR_FORMAT) : Bool :=
  match ColorFormat with
  | ECF_A8R8G8B8 | ECF_A1R5G5B5 | ECF_A16B16G16R16F | ECF_A32B32G32R32F => true
  | _ => false

/-- The constructor for render target textures,
`COpenGLTexture(name, size, ECOLOR_FORMAT format, COpenGLDriver* driver)`. -/
def COpenGLTexture.ofRenderTarget (Driver : COpenGLDriver) (This : Nat) (w : World)
    (size : dimension2d) (format : ECOLOR_FORMAT) : COpenGLTexture × World :=
  let s := COpenGLTexture.init This false false
  let prevTexture := w.TextureCache 0
  let format := if format = ECF_UNKNOWN then getBestColorFormat Driver Driver.getColorFormat
    else format
  let s := { s with OriginalSize := size, Size := size, ColorFormat := format }
  let s := if hasAlphaOfTargetFormat s.ColorFormat then { s with HasAlpha := true } else s
  let f := getOpenGLFormatAndParametersFromColorFormat Driver format
  let s := { s with InternalFormat := f.internalformat, PixelFormat := f.colorformat,
                    PixelType := f.type, HasMipMaps := false, IsRenderTarget := true }
  let nw := w.glGenTextures
  let s := { s with TextureName := nw.1 }
  let w := nw.2.TextureCache_set 0 (some s.handle)
  let w := ((w.emit (GLCall.glTexParameteri GL_TEXTURE_2D GL_TEXTURE_MIN_FILTER f.filtering)).emit
    (GLCall.glTexParameteri GL_TEXTURE_2D GL_TEXTURE_WRAP_S GL_CLAMP_TO_EDGE)).emit
    (GLCall.glTexParameteri GL_TEXTURE_2D GL_TEXTURE_WRAP_T GL_CLAMP_TO_EDGE)
  let s := { s with StatesCache := { s.StatesCache with
    BilinearFilter := if f.filtering = GL_NEAREST then false else true,
    WrapU := ETC_CLAMP_TO_EDGE, WrapV := ETC_CLAMP_TO_EDGE } }
  let w := w.glTexImage2D 0 s.InternalFormat s.OriginalSize.Width s.OriginalSize.Height
    s.PixelFormat s.PixelType none
  (s, w.TextureCache_set 0 prevTexture)

/-! ## lock and unlock -/

/-- `memcpy` source: `n` bytes of `buf` from byte offset `off`.  A read outside the buffer
is undefined in the source; here it is cut off at the ends of the buffer, and the flip loop
records every range it touches. -/
def readBytes (buf : List Nat) (off : Int) (n : Nat) : List Nat :=
  (buf.drop off.toNat).take n

/-- `memcpy` destination: `bs` written into `buf` from byte offset `off` (inside the
buffer; see `readBytes`). -/
def writeBytes (buf : List Nat) (off : Int) (bs : List Nat) : List Nat :=
  buf.take off.toNat ++ bs ++ buf.drop (off.toNat + bs.length)

/-- Conversion of a `u32` value to `s32` (two's complement). -/
def s32 (n : Nat) : Int :=
  if n % 2 ^ 32 < 2 ^ 31 then ((n % 2 ^ 32 : Nat) : Int)
  else ((n % 2 ^ 32 : Nat) : Int) - 2 ^ 32

/-- The row flip loop of `lock`,
`for (u32 i=0; i < Height; i += 2) { memcpy(tmpBuffer, pixels, pitch); memcpy(pixels, p2,
pitch); memcpy(p2, tmpBuffer, pitch); pixels += pitch; p2 -= pitch; }`, for a `pitch` that
is not negative.  `pixels` and `p2` are byte offsets into the buffer.  The second component
collects the byte ranges (offset, length) of the buffer that the three copies touch.  The
counter `i` is a `u32`: `i += 2` wraps at `2^32`.  The result is `none` when the fuel runs
out before the test `i < Height` fails. -/
def flipLoop (pitch Height : Nat) :
    Nat → Nat → Int → Int → List Nat → List (Int × Nat) →
      Option (List Nat × List (Int × Nat))
  | 0, i, _, _, buf, touched => if i < Height then none else some (buf, touched)
  | fuel + 1, i, pixels, p2, buf, touched =>
    if i < Height then
      let tmpBuffer := readBytes buf pixels pitch
      let buf := writeBytes buf pixels (readBytes buf p2 pitch)
      let buf := writeBytes buf p2 tmpBuffer
      flipLoop pitch Height fuel (u32 (i + 2)) (pixels + pitch) (p2 - pitch) buf
        (touched ++ [(pixels, pitch), (p2, pitch), (pixels, pitch), (p2, pitch)])
    else some (buf, touched)

/-- The flip of a level-0 buffer in `lock`.  `const s32 pitch = image->getPitch()` converts
the `u32` pitch to `s32`; `p2` starts at the offset `(Height - 1) * pitch`, a product of
`u32` values that wraps at `2^32` (and is added to the pointer as an unsigned offset);
`new u8[pitch]` throws for a negative `pitch`.  The loop gets `Height` rounds of fuel: a
loop that ends does so within `Height` rounds, and one that has not ended by then never
does (`flipLoop_diverges`), so running out of fuel is a loop that never ends. -/
def flipRows (image : IImage) (buf : List Nat) : Outcome (List Nat × List (Int × Nat)) :=
  let pitch : Int := s32 image.Pitch
  let p2 : Int := ((u32 (u32 (image.Size.Height + (2 ^ 32 - 1)) * u32 image.Pitch) : Nat) : Int)
  if pitch < 0 then Outcome.fault Fault.badAlloc
  else
    match flipLoop pitch.toNat image.Size.Height image.Size.Height 0 0 p2 buf [] with
    | some r => Outcome.ok r
    | none => Outcome.fault Fault.diverges

/-- The loop `do { halve width and height; ++i } while (i != mipmapLevel)` of `lock`, which
runs `mipmapLevel` times for a level of at least 1. -/
def mipLevelSize : Nat → Nat → Nat → Nat × Nat
  | 0, width, height => (width, height)
  | n + 1, width, height =>
    mipLevelSize n (if width > 1 then width >>> 1 else width)
      (if height > 1 then height >>> 1 else height)

/-- Which CPU image the pointer returned by `lock` addresses. -/
inductive LockedImage
  | main
  | mip
  deriving DecidableEq, Repr

/-- The download inside `lock` (the block `if (mode != ETLM_WRITE_ONLY)`): bind, read the
level back into the image's buffer, flip the rows of level 0, bind the texture that was
bound before.  It does not return when the flip does not. -/
def lockDownload (Driver : COpenGLDriver) (s : COpenGLTexture) (w : World) (image : IImage)
    (mipmapLevel : Nat) : Outcome (IImage × World) :=
  let tmpTexture := w.boundTexture
  let w := w.glBindTexture s.TextureName
  let invert := Driver.has_GL_MESA_pack_invert && Driver.queryOpenGLFeature IRR_MESA_pack_invert
  let w := if mipmapLevel = 0 ∧ invert then w.glPixelStorei_PACK_INVERT true else w
  let pw := w.glGetTexImage mipmapLevel GL_BGRA_EXT GL_UNSIGNED_BYTE image.Pitch
    image.Size.Height image.Data
  let r : Outcome (List Nat × World) :=
    if mipmapLevel = 0 then
      if invert then Outcome.ok (pw.1, pw.2.glPixelStorei_PACK_INVERT false)
      else
        match flipRows image pw.1 with
        | Outcome.ok f => Outcome.ok (f.1, pw.2)
        | Outcome.fault e => Outcome.fault e
    else Outcome.ok pw
  match r with
  | Outcome.ok pw => Outcome.ok ({ image with Data := pw.1 }, pw.2.glBindTexture tmpTexture)
  | Outcome.fault e => Outcome.fault e

/-- The block `if (!ReadOnlyLock && mipmapLevel)` of `lock`: a write access to a mip level
switches the automatic mipmap update off. -/
def lockAutoMipmap (Driver : COpenGLDriver) (s : COpenGLTexture) (w : World)
    (mipmapLevel : Nat) : COpenGLTexture × World :=
  if !s.ReadOnlyLock ∧ mipmapLevel ≠ 0 then
    ({ s with AutomaticMipmapUpdate := false },
      if Driver.has_GL_SGIS_generate_mipmap && Driver.queryFeature EVDF_MIP_MAP_AUTO_UPDATE
      then w.emit (GLCall.glTexParameteri GL_TEXTURE_2D GL_GENERATE_MIPMAP GL_FALSE) else w)
  else (s, w)

/-- The block `if (!image)` of `lock`: a new ECF_A8R8G8B8 image for the level, of the mip
level's size or of `OriginalSize` for level 0. -/
def lockStorage (s : COpenGLTexture) (mipmapLevel : Nat) : COpenGLTexture × IImage :=
  if mipmapLevel ≠ 0 then
    let wh := mipLevelSize mipmapLevel s.Size.Width s.Size.Height
    let image := createImage ECF_A8R8G8B8 ⟨wh.1, wh.2⟩
    ({ s with MipImage := some image, ColorFormat := ECF_A8R8G8B8 }, image)
  else
    let image := createImage ECF_A8R8G8B8 s.OriginalSize
    ({ s with Image := some image, ColorFormat := ECF_A8R8G8B8 }, image)

/-- The block `if (!image || IsRenderTarget)` of `lock`: prepare the storage if there is
none and, unless the mode is write-only, download the level into it. -/
def lockFetch (Driver : COpenGLDriver) (s : COpenGLTexture) (w : World) (image : Option IImage)
    (mode : E_TEXTURE_LOCK_MODE) (mipmapLevel : Nat) : Outcome (COpenGLTexture × World) :=
  let si : COpenGLTexture × IImage :=
    match image with
    | some image => (s, image)
    | none => lockStorage s mipmapLevel
  if mode ≠ ETLM_WRITE_ONLY then
    match lockDownload Driver si.1 w si.2 mipmapLevel with
    | Outcome.ok iw =>
      Outcome.ok (if mipmapLevel = 0 then { si.1 with Image := some iw.1 }
        else { si.1 with MipImage := some iw.1 }, iw.2)
    | Outcome.fault e => Outcome.fault e
  else Outcome.ok (si.1, w)

/-- `COpenGLTexture::lock(mode, mipmapLevel)`.  The result says which image the returned
pointer addresses, `none` for a null pointer.  `createImage` and `IImage::lock` do not
return null here, so the two `return 0` after them are not taken. -/
def lock (Driver : COpenGLDriver) (s : COpenGLTexture) (w : World) (mode : E_TEXTURE_LOCK_MODE)
    (mipmapLevel : Nat) : Outcome (COpenGLTexture × World × Option LockedImage) :=
  if s.IsCompressed then Outcome.ok (s, w, none)
  else
    let image := if mipmapLevel = 0 then s.Image else s.MipImage
    let which := if mipmapLevel = 0 then LockedImage.main else LockedImage.mip
    let s := { s with ReadOnlyLock := s.ReadOnlyLock || decide (mode = ETLM_READ_ONLY),
                      MipLevelStored := mipmapLevel }
    let sw := lockAutoMipmap Driver s w mipmapLevel
    if image.isNone ∨ sw.1.IsRenderTarget then
      match lockFetch Driver sw.1 sw.2 image mode mipmapLevel with
      | Outcome.ok r => Outcome.ok (r.1, r.2, some which)
      | Outcome.fault e => Outcome.fault e
    else Outcome.ok (sw.1, sw.2, some which)

/-- `COpenGLTexture::unlock()`. -/
def unlock (ops : ImageOps) (Driver : COpenGLDriver) (s : COpenGLTexture) (w : World) :
    Outcome (COpenGLTexture × World) :=
  if s.IsCompressed then Outcome.ok (s, w)
  else
    match (if s.MipImage.isSome then s.MipImage else s.Image) with
    | none => Outcome.ok (s, w)
    | some _ =>
      let r : Outcome (COpenGLTexture × World) :=
        if !s.ReadOnlyLock then uploadTexture ops Driver s w false none s.MipLevelStored
        else Outcome.ok (s, w)
      match r with
      | Outcome.fault f => Outcome.fault f
      | Outcome.ok (s, w) =>
        let s := { s with ReadOnlyLock := false }
        let s := if s.MipImage.isSome then { s with MipImage := none }
          else if !s.KeepImage then { s with Image := none } else s
        let s := match s.Image with
          | some Image => { s with ColorFormat := Image.Format }
          | none => { s with ColorFormat := ECF_A8R8G8B8 }
        Outcome.ok (s, w)

/-- The buffer behind a pointer returned by `lock`. -/
def COpenGLTexture.buffer (s : COpenGLTexture) (which : LockedImage) : Option (List Nat) :=
  match which with
  | LockedImage.main => s.Image.map (fun i => i.Data)
  | LockedImage.mip => s.MipImage.map (fun i => i.Data)

/-- The caller writes `data` through a pointer returned by `lock`. -/
def COpenGLTexture.write (s : COpenGLTexture) (which : LockedImage) (data : List Nat) :
    COpenGLTexture :=
  match which with
  | LockedImage.main => { s with Image := s.Image.map (fun i => { i with Data := data }) }
  | LockedImage.mip => { s with MipImage := s.MipImage.map (fun i => { i with Data := data }) }

/-! ## Concrete drivers, images and worlds -/

/-- A driver with no creation flag set, no optional feature, all header symbols present and
a maximum texture size of 1024. -/
def plainDriver : COpenGLDriver :=
  { getTextureCreationFlag := fun _ => false, queryFeature := fun _ => false,
    queryOpenGLFeature := fun _ => false, MaxTextureSize := 1024, Version := 200,
    HandleSRGB := false, getColorFormat := ECF_A8R8G8B8,
    has_GL_EXT_packed_depth_stencil := true, has_GL_ARB_half_float_pixel := true,
    has_GL_framebuffer_sRGB := true, has_GL_SGIS_generate_mipmap := true,
    has_GL_MESA_pack_invert := true }

/-- The plain driver with global sRGB handling switched on. -/
def srgbDriver : COpenGLDriver := { plainDriver with HandleSRGB := true }

/-- The plain driver with the no-alpha and always-16-bit creation flags set. -/
def noAlpha16Driver : COpenGLDriver :=
  { plainDriver with
    getTextureCreationFlag := fun f =>
      decide (f = ETCF_NO_ALPHA_CHANNEL) || decide (f = ETCF_ALWAYS_16_BIT) }

/-- The plain driver with DXT texture compression. -/
def dxtDriver : COpenGLDriver :=
  { plainDriver with queryFeature := fun f => decide (f = EVDF_TEXTURE_COMPRESSED_DXT) }

/-- The plain driver with mipmap creation switched on. -/
def mipDriver : COpenGLDriver :=
  { plainDriver with getTextureCreationFlag := fun f => decide (f = ETCF_CREATE_MIP_MAPS) }

/-- An empty GL context: nothing bound, nothing uploaded, no call made. -/
def emptyWorld : World :=
  { TextureCache := fun _ => none, boundTexture := 0, packInvert := false,
    texImage := fun _ _ => [], genCount := 0, calls := [] }

/-- Pixel conversions that copy no byte. -/
def noOps : ImageOps :=
  { copyTo := fun _ dst => dst.Data, copyToScaling := fun _ dst => dst.Data,
    copyToScalingRaw := fun _ _ _ _ => [] }

/-- A 4 x 2 image in ECF_A8R8G8B8 with the bytes 0 .. 31. -/
def image4x2 : IImage :=
  { Format := ECF_A8R8G8B8, Size := ⟨4, 2⟩, BytesPerPixel := 4, Pitch := 16,
    MipMaps := false, Data := List.range 32 }

/-- A standard texture with mipmaps that keeps the 4 x 2 image and has no automatic mipmap
update. -/
def mipTexture : COpenGLTexture :=
  { COpenGLTexture.init 1 true true with
    OriginalSize := ⟨4, 2⟩, Size := ⟨4, 2⟩, Pitch := 16, ColorFormat := ECF_A8R8G8B8,
    HasAlpha := true, HasMipMaps := true, Image := some image4x2, TextureName := 1 }

/-- A GL context whose binding cache holds another texture (object 7, GL name 7) in slot 0. -/
def boundWorld : World :=
  { emptyWorld with
    TextureCache := fun i => if i = 0 then some { This := 7, TextureName := 7 } else none,
    boundTexture := 7 }

/-- An image of width 0 and height 5 in ECF_A8R8G8B8. -/
def zeroWidthImage : IImage :=
  { Format := ECF_A8R8G8B8, Size := ⟨0, 5⟩, BytesPerPixel := 4, Pitch := 0,
    MipMaps := false, Data := [] }

/-- The value of a call that returned. -/
def Outcome.get? {α : Type} : Outcome α → Option α
  | Outcome.ok a => some a
  | Outcome.fault _ => none

/-- Two texture states agree on the members that `uploadTexture` never writes. -/
def sameCore (a b : COpenGLTexture) : Prop :=
  a.This = b.This ∧ a.OriginalSize = b.OriginalSize ∧ a.Size = b.Size ∧
  a.ColorFormat = b.ColorFormat ∧ a.IsRenderTarget = b.IsRenderTarget ∧
  a.Image = b.Image ∧ a.MipImage = b.MipImage ∧ a.TextureName = b.TextureName ∧
  a.MipLevelStored = b.MipLevelStored ∧ a.IsCompressed = b.IsCompressed ∧
  a.ReadOnlyLock = b.ReadOnlyLock ∧ a.KeepImage = b.KeepImage

/-- A 4 x 4 image in ECF_DXT1: one block of 8 bytes. -/
def dxtImage : IImage :=
  { Format := ECF_DXT1, Size := ⟨4, 4⟩, BytesPerPixel := 2, Pitch := 8,
    MipMaps := false, Data := List.range 8 }

/-- The calls the download inside `lock` makes for a texture with the given name, when
`tmpTexture` was bound before. -/
def lockDownloadCalls (Driver : COpenGLDriver) (TextureName tmpTexture mipmapLevel : Nat) :
    List GLCall :=
  let invert := Driver.has_GL_MESA_pack_invert && Driver.queryOpenGLFeature IRR_MESA_pack_invert
  [GLCall.glBindTexture TextureName] ++
    (if mipmapLevel = 0 ∧ invert then [GLCall.glPixelStorei GL_PACK_INVERT_MESA GL_TRUE]
      else []) ++
    [GLCall.glGetTexImage mipmapLevel GL_BGRA_EXT GL_UNSIGNED_BYTE] ++
    (if mipmapLevel = 0 ∧ invert then [GLCall.glPixelStorei GL_PACK_INVERT_MESA GL_FALSE]
      else []) ++
    [GLCall.glBindTexture tmpTexture]

/-- The calls `lock(mode, mipmapLevel)` makes on a texture that is not compressed. -/
def lockCalls (Driver : COpenGLDriver) (s : COpenGLTexture) (w : World)
    (mode : E_TEXTURE_LOCK_MODE) (mipmapLevel : Nat) : List GLCall :=
  (if (!(s.ReadOnlyLock || decide (mode = ETLM_READ_ONLY)) ∧ mipmapLevel ≠ 0) ∧
      (Driver.has_GL_SGIS_generate_mipmap && Driver.queryFeature EVDF_MIP_MAP_AUTO_UPDATE) = true
    then [GLCall.glTexParameteri GL_TEXTURE_2D GL_GENERATE_MIPMAP GL_FALSE] else []) ++
  (if ((if mipmapLevel = 0 then s.Image else s.MipImage).isNone ∨ s.IsRenderTarget) ∧
      mode ≠ ETLM_WRITE_ONLY
    then lockDownloadCalls Driver s.TextureName w.boundTexture mipmapLevel else [])

/-- The image the download of `lock` reads into: the image held for the level or, when
there is none, the storage `lock` creates for it. -/
def lockImage (s : COpenGLTexture) (mipmapLevel : Nat) : IImage :=
  match (if mipmapLevel = 0 then s.Image else s.MipImage) with
  | some image => image
  | none => (lockStorage s mipmapLevel).2

/-- The bytes `glGetTexImage` leaves in the buffer of `image` when `lock` reads the level
back: the texture is bound and, at level 0 with the pack-invert extension, `GL_PACK_INVERT_MESA`
is set. -/
def lockReadback (Driver : COpenGLDriver) (s : COpenGLTexture) (w : World) (image : IImage)
    (mipmapLevel : Nat) : List Nat :=
  ((if mipmapLevel = 0 ∧ (Driver.has_GL_MESA_pack_invert &&
        Driver.queryOpenGLFeature IRR_MESA_pack_invert) = true
      then (w.glBindTexture s.TextureName).glPixelStorei_PACK_INVERT true
      else w.glBindTexture s.TextureName).glGetTexImage mipmapLevel GL_BGRA_EXT
    GL_UNSIGNED_BYTE image.Pitch image.Size.Height image.Data).1

/-- The sizes for which the flip of `lock` returns: the height is below `2^32 - 1`, so that
the counter does not wrap, and the pitch is not negative as an `s32`. -/
def flipReturns (image : IImage) : Prop :=
  image.Size.Height < 2 ^ 32 - 1 ∧ image.Pitch % 2 ^ 32 < 2 ^ 31

/-- Lock level 0 in `mode`, write `data` through the pointer, unlock, lock level 0 again
read-only: the bytes behind the second pointer (`none` when a pointer is null or a call does
not return). -/
def writeThenRead (ops : ImageOps) (Driver : COpenGLDriver) (s : COpenGLTexture) (w : World)
    (mode : E_TEXTURE_LOCK_MODE) (data : List Nat) : Option (List Nat) :=
  match lock Driver s w mode 0 with
  | Outcome.fault _ => none
  | Outcome.ok (_, _, none) => none
  | Outcome.ok (s1, w1, some which) =>
    match unlock ops Driver (s1.write which data) w1 with
    | Outcome.fault _ => none
    | Outcome.ok (s2, w2) =>
      match lock Driver s2 w2 ETLM_READ_ONLY 0 with
      | Outcome.fault _ => none
      | Outcome.ok (_, _, none) => none
      | Outcome.ok (s3, _, some which2) => s3.buffer which2

/-- A render target of width 1 and height 2 in ECF_A8R8G8B8, as its constructor leaves it. -/
def renderTarget1x2 : COpenGLTexture × World :=
  COpenGLTexture.ofRenderTarget plainDriver 1 emptyWorld ⟨1, 2⟩ ECF_A8R8G8B8

/-- The fault of a call that did not return. -/
def Outcome.fault? {α : Type} : Outcome α → Option Fault
  | Outcome.ok _ => none
  | Outcome.fault f => some f

/-- The plain driver with DXT texture compression and mipmap creation. -/
def dxtMipDriver : COpenGLDriver :=
  { plainDriver with
    queryFeature := fun f => decide (f = EVDF_TEXTURE_COMPRESSED_DXT),
    getTextureCreationFlag := fun f => decide (f = ETCF_CREATE_MIP_MAPS) }

/-- A 4 x 4 image in ECF_DXT1 that carries its mip levels: 8 bytes for each of the levels
4 x 4, 2 x 2 and 1 x 1. -/
def dxtMipImage : IImage :=
  { Format := ECF_DXT1, Size := ⟨4, 4⟩, BytesPerPixel := 2, Pitch := 8,
    MipMaps := true, Data := List.range 24 }

/-- An image of width 0 and height 2^32 - 1, with an empty buffer. -/
def tallImage : IImage :=
  { Format := ECF_A8R8G8B8, Size := ⟨0, 4294967295⟩, BytesPerPixel := 4, Pitch := 0,
    MipMaps := false, Data := [] }

/-- A 5000 x 1 image in ECF_A8R8G8B8. -/
def thinImage : IImage :=
  { Format := ECF_A8R8G8B8, Size := ⟨5000, 1⟩, BytesPerPixel := 4, Pitch := 20000,
    MipMaps := false, Data := [] }

/-! # Theorems -/

/-! ## getBestColorFormat -/

/-- C10: `getBestColorFormat` returns one of ECF_A1R5G5B5, ECF_R5G6B5, ECF_A8R8G8B8 and
ECF_R8G8B8 for every input format and every combination of creation flags; with the
no-alpha-channel flag set the result is ECF_R5G6B5 or ECF_R8G8B8; and with the always-16-bit
or the optimized-for-speed flag set an ECF_A8R8G8B8 or ECF_R8G8B8 input gives ECF_A1R5G5B5,
or ECF_R5G6B5 when the no-alpha-channel flag is set. -/
theorem getBestColorFormat_range (Driver : COpenGLDriver) (format : ECOLOR_FORMAT) :
    (getBestColorFormat Driver format = ECF_A1R5G5B5 ∨
      getBestColorFormat Driver format = ECF_R5G6B5 ∨
      getBestColorFormat Driver format = ECF_A8R8G8B8 ∨
      getBestColorFormat Driver format = ECF_R8G8B8) ∧
    (Driver.getTextureCreationFlag ETCF_NO_ALPHA_CHANNEL = true →
      getBestColorFormat Driver format = ECF_R5G6B5 ∨
      getBestColorFormat Driver format = ECF_R8G8B8) ∧
    ((Driver.getTextureCreationFlag ETCF_ALWAYS_16_BIT = true ∨
        Driver.getTextureCreationFlag ETCF_OPTIMIZED_FOR_SPEED = true) →
      (format = ECF_A8R8G8B8 ∨ format = ECF_R8G8B8) →
      getBestColorFormat Driver format =
        if Driver.getTextureCreationFlag ETCF_NO_ALPHA_CHANNEL then ECF_R5G6B5
        else ECF_A1R5G5B5) := by
  refine ⟨?_, ?_, ?_⟩
  · cases format <;> simp only [getBestColorFormat] <;>
      cases Driver.getTextureCreationFlag ETCF_NO_ALPHA_CHANNEL <;>
      cases Driver.getTextureCreationFlag ETCF_ALWAYS_32_BIT <;>
      cases Driver.getTextureCreationFlag ETCF_ALWAYS_16_BIT <;>
      cases Driver.getTextureCreationFlag ETCF_OPTIMIZED_FOR_SPEED <;> simp
  · intro h
    cases format <;> simp only [getBestColorFormat, h] <;>
      cases Driver.getTextureCreationFlag ETCF_ALWAYS_32_BIT <;>
      cases Driver.getTextureCreationFlag ETCF_ALWAYS_16_BIT <;>
      cases Driver.getTextureCreationFlag ETCF_OPTIMIZED_FOR_SPEED <;> simp
  · intro h hf
    rcases hf with rfl | rfl <;> simp only [getBestColorFormat] <;>
      cases hn : Driver.getTextureCreationFlag ETCF_NO_ALPHA_CHANNEL <;>
      rcases h with h | h <;> simp [h]

/-- The three parts of `getBestColorFormat_range` at a driver with the no-alpha and the
always-16-bit flags and a 32-bit input. -/
theorem getBestColorFormat_range_witness :
    (getBestColorFormat noAlpha16Driver ECF_A8R8G8B8 = ECF_R5G6B5 ∨
      getBestColorFormat noAlpha16Driver ECF_A8R8G8B8 = ECF_R8G8B8) ∧
    getBestColorFormat noAlpha16Driver ECF_A8R8G8B8 =
      (if noAlpha16Driver.getTextureCreationFlag ETCF_NO_ALPHA_CHANNEL then ECF_R5G6B5
        else ECF_A1R5G5B5) :=
  ⟨(getBestColorFormat_range noAlpha16Driver ECF_A8R8G8B8).2.1 (by decide),
   (getBestColorFormat_range noAlpha16Driver ECF_A8R8G8B8).2.2 (Or.inl (by decide))
     (Or.inl rfl)⟩

/-! ## getOpenGLFormatAndParametersFromColorFormat -/

/-- C2 (as stated, refuted): with global sRGB handling on and ARB_texture_rg absent, ECF_R8
does not give the RGBA8 default: the internal format is GL_SRGB_ALPHA_EXT, not GL_RGBA. -/
theorem getOpenGLFormat_fallback_srgb_counterexample :
    srgbDriver.queryOpenGLFeature IRR_ARB_texture_rg = false ∧
    (getOpenGLFormatAndParametersFromColorFormat srgbDriver ECF_R8).internalformat =
      GL_SRGB_ALPHA_EXT ∧
    getOpenGLFormatAndParametersFromColorFormat srgbDriver ECF_R8 ≠ GLFormat.default := by
  decide

/-- C2 (amended): for a format whose capability is absent (ECF_D24S8 without packed
depth-stencil, the R and RG formats without ARB_texture_rg, the two RGBA float formats without
ARB_texture_float) and for a format outside the supported set, the mapper returns pixel
format GL_RGBA, pixel type GL_UNSIGNED_BYTE and filtering GL_LINEAR; the internal format is
GL_RGBA, or GL_SRGB_ALPHA_EXT when the driver handles sRGB. -/
theorem getOpenGLFormat_fallback (Driver : COpenGLDriver) (format : ECOLOR_FORMAT)
    (h : (format = ECF_D24S8 ∧
            (Driver.has_GL_EXT_packed_depth_stencil &&
              Driver.queryOpenGLFeature IRR_EXT_packed_depth_stencil) = false) ∨
         ((format = ECF_R8 ∨ format = ECF_R8G8 ∨ format = ECF_R16 ∨ format = ECF_R16G16 ∨
            format = ECF_R16F ∨ format = ECF_G16R16F ∨ format = ECF_R32F ∨
            format = ECF_G32R32F) ∧ Driver.queryOpenGLFeature IRR_ARB_texture_rg = false) ∨
         ((format = ECF_A16B16G16R16F ∨ format = ECF_A32B32G32R32F) ∧
            Driver.queryOpenGLFeature IRR_ARB_texture_float = false) ∨
         format = ECF_UNKNOWN) :
    getOpenGLFormatAndParametersFromColorFormat Driver format =
      { internalformat :=
          if Driver.has_GL_framebuffer_sRGB && Driver.HandleSRGB then GL_SRGB_ALPHA_EXT
          else GL_RGBA,
        filtering := GL_LINEAR, colorformat := GL_RGBA, type := GL_UNSIGNED_BYTE } := by
  have key : formatSwitch Driver format = GLFormat.default := by
    rcases h with ⟨rfl, h⟩ | ⟨h1, h⟩ | ⟨h1, h⟩ | rfl
    · simp [formatSwitch, h]
    · rcases h1 with rfl | rfl | rfl | rfl | rfl | rfl | rfl | rfl <;> simp [formatSwitch, h]
    · rcases h1 with rfl | rfl <;> simp [formatSwitch, h]
    · simp [formatSwitch]
  simp only [getOpenGLFormatAndParametersFromColorFormat, key, GLFormat.default, srgbRemap]
  cases Driver.has_GL_framebuffer_sRGB <;> cases Driver.HandleSRGB <;> simp

/-- The fallback at the plain driver (no ARB_texture_rg, no sRGB handling) for ECF_R16. -/
theorem getOpenGLFormat_fallback_witness :
    getOpenGLFormatAndParametersFromColorFormat plainDriver ECF_R16 =
      { internalformat := GL_RGBA, filtering := GL_LINEAR, colorformat := GL_RGBA,
        type := GL_UNSIGNED_BYTE } :=
  getOpenGLFormat_fallback plainDriver ECF_R16
    (Or.inr (Or.inl ⟨Or.inr (Or.inr (Or.inl rfl)), rfl⟩))

/-! ## getImageValues -/

/-! ### Rounding to `f32` -/

/-- Rounding does not go below the integer part. -/
theorem floor_le_roundHalfEven (q : ℚ) : ⌊q⌋ ≤ roundHalfEven q := by
  unfold roundHalfEven
  split_ifs <;> omega

/-- Rounding goes at most one above the integer part. -/
theorem roundHalfEven_le_floor_succ (q : ℚ) : roundHalfEven q ≤ ⌊q⌋ + 1 := by
  unfold roundHalfEven
  split_ifs <;> omega

/-- An integer rounds to itself. -/
theorem roundHalfEven_intCast (n : ℤ) : roundHalfEven (n : ℚ) = n := by
  unfold roundHalfEven
  simp

/-- An integer below a value is below its rounding. -/
theorem le_roundHalfEven (q : ℚ) (n : ℤ) (h : (n : ℚ) ≤ q) : n ≤ roundHalfEven q :=
  le_trans (Int.le_floor.2 h) (floor_le_roundHalfEven q)

/-- An integer above a value is above its rounding. -/
theorem roundHalfEven_le (q : ℚ) (n : ℤ) (h : q ≤ (n : ℚ)) : roundHalfEven q ≤ n := by
  rcases eq_or_lt_of_le h with h1 | h1
  · rw [h1, roundHalfEven_intCast]
  · have : ⌊q⌋ < n := Int.floor_lt.2 h1
    have := roundHalfEven_le_floor_succ q
    omega

/-- Rounding is monotone. -/
theorem roundHalfEven_mono {x y : ℚ} (h : x ≤ y) : roundHalfEven x ≤ roundHalfEven y := by
  have hf : ⌊x⌋ ≤ ⌊y⌋ := Int.floor_le_floor h
  rcases eq_or_lt_of_le hf with he | hl
  · unfold roundHalfEven
    rw [← he]
    have hxy : x - ⌊x⌋ ≤ y - ⌊x⌋ := by linarith
    split_ifs <;> first | omega | linarith
  · have h1 := roundHalfEven_le_floor_succ x
    have h2 := floor_le_roundHalfEven y
    omega

/-- A rounded value is not negative. -/
theorem f32_nonneg (q : ℚ) : 0 ≤ f32 q := by
  unfold f32
  split_ifs with h
  · exact le_refl 0
  · push_neg at h
    apply mul_nonneg
    · have : (0 : ℤ) ≤ roundHalfEven (q / 2 ^ (Int.log 2 q - 23)) :=
        le_roundHalfEven _ 0 (by
          have : (0:ℚ) < 2 ^ (Int.log 2 q - 23) := zpow_pos (by norm_num) _
          push_cast
          positivity)
      exact_mod_cast this
    · positivity

/-- The scaled value lies in `[2^23, 2^24)`. -/
theorem scaled_bounds (q : ℚ) (hq : 0 < q) :
    (2 : ℚ) ^ (23 : ℕ) ≤ q / 2 ^ (Int.log 2 q - 23) ∧
    q / 2 ^ (Int.log 2 q - 23) < (2 : ℚ) ^ (24 : ℕ) := by
  have hu : (0 : ℚ) < 2 ^ (Int.log 2 q - 23) := zpow_pos (by norm_num) _
  have h1 : ((2 : ℕ) : ℚ) ^ Int.log 2 q ≤ q := Int.zpow_log_le_self (by norm_num) hq
  have h2 : q < ((2 : ℕ) : ℚ) ^ (Int.log 2 q + 1) := Int.lt_zpow_succ_log_self (by norm_num) q
  have e1 : (2 : ℚ) ^ Int.log 2 q = 2 ^ (23 : ℕ) * 2 ^ (Int.log 2 q - 23) := by
    rw [← zpow_natCast, ← zpow_add₀ (by norm_num : (2 : ℚ) ≠ 0)]
    congr 1
    omega
  have e2 : (2 : ℚ) ^ (Int.log 2 q + 1) = 2 ^ (24 : ℕ) * 2 ^ (Int.log 2 q - 23) := by
    rw [← zpow_natCast, ← zpow_add₀ (by norm_num : (2 : ℚ) ≠ 0)]
    congr 1
    omega
  push_cast at h1 h2
  rw [e1] at h1
  rw [e2] at h2
  exact ⟨(le_div_iff₀ hu).2 h1, (div_lt_iff₀ hu).2 h2⟩

/-- Rounding stays at or above the power of two below the value. -/
theorem pow_log_le_f32 (q : ℚ) (hq : 0 < q) : (2 : ℚ) ^ Int.log 2 q ≤ f32 q := by
  have hu : (0 : ℚ) < 2 ^ (Int.log 2 q - 23) := zpow_pos (by norm_num) _
  unfold f32
  rw [if_neg (not_le.2 hq)]
  have h := le_roundHalfEven (q / 2 ^ (Int.log 2 q - 23)) ((2 : ℤ) ^ (23 : ℕ))
    (by push_cast; exact (scaled_bounds q hq).1)
  have h' : ((2 : ℚ) ^ (23 : ℕ)) ≤ (roundHalfEven (q / 2 ^ (Int.log 2 q - 23)) : ℚ) := by
    exact_mod_cast h
  have e1 : (2 : ℚ) ^ Int.log 2 q = 2 ^ (23 : ℕ) * 2 ^ (Int.log 2 q - 23) := by
    rw [← zpow_natCast, ← zpow_add₀ (by norm_num : (2 : ℚ) ≠ 0)]
    congr 1
    omega
  rw [e1]
  exact mul_le_mul_of_nonneg_right h' hu.le

/-- Rounding stays at or below the power of two above the value. -/
theorem f32_le_pow_log_succ (q : ℚ) (hq : 0 < q) : f32 q ≤ (2 : ℚ) ^ (Int.log 2 q + 1) := by
  have hu : (0 : ℚ) < 2 ^ (Int.log 2 q - 23) := zpow_pos (by norm_num) _
  unfold f32
  rw [if_neg (not_le.2 hq)]
  have h := roundHalfEven_le (q / 2 ^ (Int.log 2 q - 23)) ((2 : ℤ) ^ (24 : ℕ))
    (by push_cast; exact (scaled_bounds q hq).2.le)
  have h' : (roundHalfEven (q / 2 ^ (Int.log 2 q - 23)) : ℚ) ≤ ((2 : ℚ) ^ (24 : ℕ)) := by
    exact_mod_cast h
  have e2 : (2 : ℚ) ^ (Int.log 2 q + 1) = 2 ^ (24 : ℕ) * 2 ^ (Int.log 2 q - 23) := by
    rw [← zpow_natCast, ← zpow_add₀ (by norm_num : (2 : ℚ) ≠ 0)]
    congr 1
    omega
  rw [e2]
  exact mul_le_mul_of_nonneg_right h' hu.le

/-- Rounding to `f32` is monotone. -/
theorem f32_mono {x y : ℚ} (h : x ≤ y) : f32 x ≤ f32 y := by
  rcases le_or_lt x 0 with hx | hx
  · have : f32 x = 0 := by unfold f32; rw [if_pos hx]
    rw [this]
    exact f32_nonneg y
  · have hy : 0 < y := lt_of_lt_of_le hx h
    have hlog : Int.log 2 x ≤ Int.log 2 y := Int.log_mono_right hx h
    rcases eq_or_lt_of_le hlog with he | hl
    · unfold f32
      rw [if_neg (not_le.2 hx), if_neg (not_le.2 hy), ← he]
      have hu : (0 : ℚ) < 2 ^ (Int.log 2 x - 23) := zpow_pos (by norm_num) _
      apply mul_le_mul_of_nonneg_right _ hu.le
      have := roundHalfEven_mono (div_le_div_of_nonneg_right h hu.le)
      exact_mod_cast this
    · calc f32 x ≤ (2 : ℚ) ^ (Int.log 2 x + 1) := f32_le_pow_log_succ x hx
        _ ≤ (2 : ℚ) ^ Int.log 2 y := zpow_le_zpow_right₀ (by norm_num) (by omega)
        _ ≤ f32 y := pow_log_le_f32 y hy

/-- The exponent of a value between two consecutive powers of two. -/
theorem log_eq_of_bounds (q : ℚ) (e : ℤ) (hq : 0 < q) (h1 : (2 : ℚ) ^ e ≤ q)
    (h2 : q < (2 : ℚ) ^ (e + 1)) : Int.log 2 q = e := by
  have a1 : e ≤ Int.log 2 q := (Int.zpow_le_iff_le_log (by norm_num) hq).1 (by exact_mod_cast h1)
  have a2 : Int.log 2 q < e + 1 := (Int.lt_zpow_iff_log_lt (by norm_num) hq).1 (by exact_mod_cast h2)
  omega

/-- A value whose scaled significand is an integer is representable. -/
theorem f32_of_scaled_int (q : ℚ) (hq : 0 < q) (m : ℤ)
    (h : q / 2 ^ (Int.log 2 q - 23) = (m : ℚ)) : f32 q = q := by
  have hu : (2 : ℚ) ^ (Int.log 2 q - 23) ≠ 0 := (zpow_pos (by norm_num) _).ne'
  unfold f32
  rw [if_neg (not_le.2 hq), h, roundHalfEven_intCast, ← h, div_mul_cancel₀ _ hu]

/-- Every natural number up to 2^24 is representable. -/
theorem f32_natCast (n : ℕ) (hn : n ≤ 2 ^ 24) : f32 (n : ℚ) = n := by
  rcases Nat.eq_zero_or_pos n with h0 | hpos
  · subst h0
    simp [f32]
  · have hq : (0 : ℚ) < n := by exact_mod_cast hpos
    have hlog : Int.log 2 (n : ℚ) = (Nat.log 2 n : ℤ) := Int.log_natCast 2 n
    have hL : Nat.log 2 n ≤ 24 := by
      calc Nat.log 2 n ≤ Nat.log 2 (2 ^ 24) := Nat.log_mono_right hn
        _ = 24 := Nat.log_pow (by norm_num) 24
    rcases Nat.lt_or_ge (Nat.log 2 n) 24 with hlt | hge
    · obtain ⟨k, hk⟩ : ∃ k : ℕ, Nat.log 2 n + k = 23 := ⟨23 - Nat.log 2 n, by omega⟩
      apply f32_of_scaled_int _ hq ((n : ℤ) * 2 ^ k)
      rw [hlog]
      have e : ((Nat.log 2 n : ℤ) - 23) = -(k : ℤ) := by omega
      rw [e, zpow_neg, div_inv_eq_mul, zpow_natCast]
      push_cast
      rfl
    · have hL24 : Nat.log 2 n = 24 := by omega
      have h1 : 2 ^ 24 ≤ n := by
        have := Nat.pow_log_le_self 2 (Nat.pos_iff_ne_zero.1 hpos)
        rw [hL24] at this
        exact this
      have hn24 : n = 2 ^ 24 := by omega
      apply f32_of_scaled_int _ hq (2 ^ 23)
      rw [hlog, hL24, hn24]
      norm_num

/-- For an image of non-zero size `getImageValues` leaves the clamped size in
`OriginalSize`. -/
theorem getImageValues_OriginalSize (Driver : COpenGLDriver) (s : COpenGLTexture)
    (image : IImage) (hW : image.Size.Width ≠ 0) (hH : image.Size.Height ≠ 0) :
    (getImageValues Driver s (some image)).OriginalSize =
      clampOriginalSize Driver.MaxTextureSize image.Size := by
  simp only [getImageValues, hW, hH, or_self, if_false]
  split <;> rfl

/-- One halving step of the mip loop, for a dimension of at least 1. -/
theorem halve_eq_max (x : Nat) (hx : 1 ≤ x) :
    (if x > 1 then x >>> 1 else x) = max 1 (x >>> 1) := by
  rw [Nat.shiftRight_eq_div_pow]
  split <;> omega

/-- The mip loop ends from dimensions of at least 1, whatever the mipmap data and the
compression, once the fuel covers the sum of the dimensions. -/
theorem mipLoop_returns (ops : ImageOps) (s : COpenGLTexture) (Image : IImage) :
    ∀ (fuel width height i : Nat) (mipmapData : Option (List Nat)) (w : World),
      1 ≤ width → 1 ≤ height → width + height ≤ fuel + 1 → 1 ≤ fuel →
      ∃ w', mipLoop ops s Image fuel width height i mipmapData w = Outcome.ok w' := by
  intro fuel
  induction fuel with
  | zero => intro width height i mipmapData w _ _ _ h; omega
  | succ fuel ih =>
    intro width height i mipmapData w hw hh hf _
    have ew := halve_eq_max width hw
    have eh := halve_eq_max height hh
    have dw : width >>> 1 = width / 2 := by rw [Nat.shiftRight_eq_div_pow]
    have dh : height >>> 1 = height / 2 := by rw [Nat.shiftRight_eq_div_pow]
    simp only [mipLoop, ew, eh]
    by_cases hdone : max 1 (width >>> 1) ≠ 1 ∨ max 1 (height >>> 1) ≠ 1
    · rw [if_pos hdone]
      exact ih _ _ _ _ _ (le_max_left _ _) (le_max_left _ _) (by omega) (by omega)
    · rw [if_neg hdone]
      exact ⟨_, rfl⟩

/-- `regenerateMipMapLevels` returns when the texture holds an image with both dimensions at
least 1. -/
theorem regenerateMipMapLevels_returns (ops : ImageOps) (s : COpenGLTexture) (w : World)
    (mipmapData : Option (List Nat)) (Image : IImage) (hI : s.Image = some Image)
    (hW : 1 ≤ Image.Size.Width) (hH : 1 ≤ Image.Size.Height) :
    ∃ w', regenerateMipMapLevels ops s w mipmapData = Outcome.ok w' := by
  unfold regenerateMipMapLevels
  split
  · exact ⟨_, rfl⟩
  split
  · exact ⟨_, rfl⟩
  split
  · exact ⟨_, rfl⟩
  split
  · exact ⟨_, rfl⟩
  split
  · exact ⟨_, rfl⟩
  rw [hI]
  exact mipLoop_returns ops s Image _ _ _ _ _ _ hW hH (by omega) (by omega)

/-- The mipmap set-up before the upload leaves the CPU image alone. -/
theorem uploadMipmapSetup_Image (Driver : COpenGLDriver) (s : COpenGLTexture) (w : World)
    (mipmapData : Option (List Nat)) :
    (uploadMipmapSetup Driver s w mipmapData).1.Image = s.Image := by
  unfold uploadMipmapSetup
  dsimp only
  split_ifs <;> rfl

/-- The mipmap block after the upload returns when the texture holds an image with both
dimensions at least 1. -/
theorem uploadMipmaps_returns (ops : ImageOps) (s : COpenGLTexture) (w : World)
    (image : IImage) (mipmapData : Option (List Nat)) (Image : IImage)
    (hI : s.Image = some Image) (hW : 1 ≤ Image.Size.Width) (hH : 1 ≤ Image.Size.Height) :
    ∃ s' w', uploadMipmaps ops s w image mipmapData = Outcome.ok (s', w') := by
  unfold uploadMipmaps
  dsimp only
  generalize hsm : (if (s.IsCompressed && mipmapData.isNone) = true then
      if image.MipMaps = true then (s, some (List.drop (if s.IsCompressed = true then
        compressedDataSize s.ColorFormat image.Size.Width image.Size.Height else 0) image.Data))
      else ({ s with HasMipMaps := false }, mipmapData)
    else (s, mipmapData)) = sm
  have hsI : sm.1.Image = some Image := by
    rw [← hsm, ← hI]
    split_ifs <;> rfl
  obtain ⟨w', hw'⟩ := regenerateMipMapLevels_returns ops sm.1 w sm.2 Image hsI hW hH
  rw [hw']
  dsimp only
  split_ifs
  · exact ⟨_, _, rfl⟩
  · exact ⟨_, _, rfl⟩

/-- `uploadTexture` returns whenever the level-0 image, if there is one, has both dimensions
at least 1. -/
theorem uploadTexture_returns (ops : ImageOps) (Driver : COpenGLDriver)
    (s : COpenGLTexture) (w : World) (newTexture : Bool) (mipmapData : Option (List Nat))
    (level : Nat)
    (hdim : ∀ image, s.Image = some image → 1 ≤ image.Size.Width ∧ 1 ≤ image.Size.Height) :
    ∃ s' w', uploadTexture ops Driver s w newTexture mipmapData level =
      Outcome.ok (s', w') := by
  unfold uploadTexture
  split
  · exact ⟨_, _, rfl⟩
  · rename_i image himg
    dsimp only
    by_cases hl : level = 0 ∧ newTexture = true
    · obtain ⟨rfl, rfl⟩ := hl
      have hI : s.Image = some image := by simpa using himg
      simp only [and_self, if_true]
      generalize hA : uploadMipmapSetup Driver _ _ mipmapData = A
      have hAI : A.1.Image = some image := by
        rw [← hA, uploadMipmapSetup_Image]
        exact hI
      generalize uploadImage _ _ _ _ _ = B
      obtain ⟨s', w', h⟩ := uploadMipmaps_returns ops A.1 B image mipmapData image hAI
        (hdim image hI).1 (hdim image hI).2
      rw [h]
      exact ⟨_, _, rfl⟩
    · simp only [hl, if_false]
      exact ⟨_, _, rfl⟩

/-- C4: whenever `uploadTexture` returns, slot 0 of the driver's binding cache holds the
texture it held on entry, for every texture state, every argument triple and every prior
cache content, on the early return without an image as on the path through
`regenerateMipMapLevels`; and `uploadTexture` does return whenever the level-0 image, if
there is one, has both dimensions at least 1. -/
theorem uploadTexture_restores_slot0 (ops : ImageOps) (Driver : COpenGLDriver)
    (s : COpenGLTexture) (w : World) (newTexture : Bool) (mipmapData : Option (List Nat))
    (level : Nat) :
    (∀ s' w', uploadTexture ops Driver s w newTexture mipmapData level = Outcome.ok (s', w') →
      w'.TextureCache 0 = w.TextureCache 0) ∧
    ((∀ image, s.Image = some image → 1 ≤ image.Size.Width ∧ 1 ≤ image.Size.Height) →
      ∃ s' w', uploadTexture ops Driver s w newTexture mipmapData level =
        Outcome.ok (s', w')) := by
  constructor
  · intro s' w' h
    unfold uploadTexture at h
    split at h
    · cases h
      rfl
    · dsimp only at h
      split at h
      · cases h
      · cases h
        simp [World.TextureCache_set]
  · exact uploadTexture_returns ops Driver s w newTexture mipmapData level

/-- A new level-0 upload of the 4 x 2 mipmapped texture returns and leaves texture 7 in
slot 0 of the binding cache. -/
theorem uploadTexture_restores_slot0_witness :
    ∃ s' w', uploadTexture noOps mipDriver mipTexture boundWorld true none 0 =
        Outcome.ok (s', w') ∧
      w'.TextureCache 0 = some { This := 7, TextureName := 7 } :=
  let ⟨s', w', h⟩ :=
    (uploadTexture_restores_slot0 noOps mipDriver mipTexture boundWorld true none 0).2
      (fun image hi => by
        have e : image = image4x2 := (Option.some.inj hi).symm
        subst e
        decide)
  ⟨s', w', h,
    (uploadTexture_restores_slot0 noOps mipDriver mipTexture boundWorld true none 0).1 s' w' h⟩

/-- `sameCore` is reflexive. -/
theorem sameCore_refl (a : COpenGLTexture) : sameCore a a :=
  ⟨rfl, rfl, rfl, rfl, rfl, rfl, rfl, rfl, rfl, rfl, rfl, rfl⟩

/-- `sameCore` is transitive. -/
theorem sameCore_trans {a b c : COpenGLTexture} (h1 : sameCore a b) (h2 : sameCore b c) :
    sameCore a c := by
  obtain ⟨a1, a2, a3, a4, a5, a6, a7, a8, a9, a10, a11, a12⟩ := h1
  obtain ⟨b1, b2, b3, b4, b5, b6, b7, b8, b9, b10, b11, b12⟩ := h2
  exact ⟨a1.trans b1, a2.trans b2, a3.trans b3, a4.trans b4, a5.trans b5, a6.trans b6,
    a7.trans b7, a8.trans b8, a9.trans b9, a10.trans b10, a11.trans b11, a12.trans b12⟩

/-- The mipmap set-up before the upload writes none of the core members. -/
theorem uploadMipmapSetup_core (Driver : COpenGLDriver) (s : COpenGLTexture) (w : World)
    (mipmapData : Option (List Nat)) :
    sameCore (uploadMipmapSetup Driver s w mipmapData).1 s := by
  unfold uploadMipmapSetup
  dsimp only
  split_ifs <;> exact sameCore_refl s

/-- The mipmap set-up before the upload only adds calls, none of them an upload or a
readback. -/
theorem uploadMipmapSetup_calls (Driver : COpenGLDriver) (s : COpenGLTexture) (w : World)
    (mipmapData : Option (List Nat)) :
    ∃ l, (uploadMipmapSetup Driver s w mipmapData).2.calls = w.calls ++ l ∧
      ∀ c ∈ l, c.isUpload = false ∧ c.isReadback = false := by
  unfold uploadMipmapSetup
  dsimp only
  split_ifs
  all_goals simp only [World.emit, List.append_assoc]
  all_goals refine ⟨_, rfl, ?_⟩
  all_goals simp [GLCall.isUpload, GLCall.isReadback]

/-- The upload call of `uploadTexture` adds exactly one call, an upload. -/
theorem uploadImage_calls (s : COpenGLTexture) (w : World) (image : IImage)
    (newTexture : Bool) (level : Nat) :
    ∃ c, (uploadImage s w image newTexture level).calls = w.calls ++ [c] ∧
      c.isUpload = true := by
  unfold uploadImage
  dsimp only
  split_ifs <;> exact ⟨_, rfl, rfl⟩

/-- One level upload of the mip loop adds exactly one call, an upload. -/
theorem mipUpload_calls (ops : ImageOps) (s : COpenGLTexture) (Image : IImage)
    (width height i : Nat) (mipmapData : Option (List Nat)) (w : World) :
    ∃ c, (mipUpload ops s Image width height i mipmapData w).calls = w.calls ++ [c] ∧
      c.isUpload = true := by
  unfold mipUpload
  dsimp only
  split_ifs <;> exact ⟨_, rfl, rfl⟩

/-- The mip loop only adds calls, and all of them are uploads. -/
theorem mipLoop_calls (ops : ImageOps) (s : COpenGLTexture) (Image : IImage) :
    ∀ (fuel width height i : Nat) (mipmapData : Option (List Nat)) (w w' : World),
      mipLoop ops s Image fuel width height i mipmapData w = Outcome.ok w' →
      ∃ l, w'.calls = w.calls ++ l ∧ ∀ c ∈ l, c.isUpload = true := by
  intro fuel
  induction fuel with
  | zero =>
    intro width height i mipmapData w w' h
    simp [mipLoop] at h
  | succ fuel ih =>
    intro width height i mipmapData w w' h
    rw [mipLoop] at h
    obtain ⟨c, hc, hcu⟩ := mipUpload_calls ops s Image
      (if width > 1 then width >>> 1 else width) (if height > 1 then height >>> 1 else height)
      (i + 1) mipmapData w
    by_cases hd : (if width > 1 then width >>> 1 else width) ≠ 1 ∨
        (if height > 1 then height >>> 1 else height) ≠ 1
    · rw [if_pos hd] at h
      obtain ⟨l, hl, hu⟩ := ih _ _ _ _ _ _ h
      refine ⟨c :: l, ?_, ?_⟩
      · rw [hl, hc, List.append_assoc, List.singleton_append]
      · intro c' hc'
        rcases List.mem_cons.1 hc' with h1 | h1
        · rw [h1]
          exact hcu
        · exact hu c' h1
    · rw [if_neg hd] at h
      cases h
      exact ⟨[c], hc, fun c' hc' => by rw [List.mem_singleton.1 hc']; exact hcu⟩

/-- `regenerateMipMapLevels` only adds calls, none of them a readback. -/
theorem regenerateMipMapLevels_calls (ops : ImageOps) (s : COpenGLTexture) (w w' : World)
    (mipmapData : Option (List Nat))
    (h : regenerateMipMapLevels ops s w mipmapData = Outcome.ok w') :
    ∃ l, w'.calls = w.calls ++ l ∧ ∀ c ∈ l, c.isReadback = false := by
  unfold regenerateMipMapLevels at h
  split at h
  · cases h
    exact ⟨[], by simp, by simp⟩
  split at h
  · cases h
    exact ⟨[], by simp, by simp⟩
  split at h
  · cases h
    exact ⟨[], by simp, by simp⟩
  split at h
  · cases h
    exact ⟨[], by simp, by simp⟩
  split at h
  · cases h
    refine ⟨_, by simp only [World.emit, List.append_assoc]; rfl, ?_⟩
    simp [GLCall.isReadback]
  split at h
  · cases h
  · obtain ⟨l, hl, hu⟩ := mipLoop_calls ops s _ _ _ _ _ _ _ _ h
    refine ⟨l, hl, ?_⟩
    intro c hc
    have := hu c hc
    cases c <;> simp_all [GLCall.isUpload, GLCall.isReadback]

/-- The mipmap block after the upload writes none of the core members and only adds calls,
none of them a readback. -/
theorem uploadMipmaps_core (ops : ImageOps) (s s' : COpenGLTexture) (w w' : World)
    (image : IImage) (mipmapData : Option (List Nat))
    (h : uploadMipmaps ops s w image mipmapData = Outcome.ok (s', w')) :
    sameCore s' s ∧ ∃ l, w'.calls = w.calls ++ l ∧ ∀ c ∈ l, c.isReadback = false := by
  unfold uploadMipmaps at h
  dsimp only at h
  generalize hsm : (if (s.IsCompressed && mipmapData.isNone) = true then
      if image.MipMaps = true then (s, some (List.drop (if s.IsCompressed = true then
        compressedDataSize s.ColorFormat image.Size.Width image.Size.Height else 0) image.Data))
      else ({ s with HasMipMaps := false }, mipmapData)
    else (s, mipmapData)) = sm at h
  have hcore : sameCore sm.1 s := by
    rw [← hsm]
    split_ifs <;> exact sameCore_refl s
  cases hr : regenerateMipMapLevels ops sm.1 w sm.2 with
  | fault f => rw [hr] at h; cases h
  | ok w1 =>
    rw [hr] at h
    dsimp only at h
    obtain ⟨l, hl, hu⟩ := regenerateMipMapLevels_calls ops sm.1 w w1 sm.2 hr
    split at h
    · cases h
      refine ⟨hcore, l ++ _, by simp only [World.emit, hl, List.append_assoc]; rfl, ?_⟩
      intro c hc
      rcases List.mem_append.1 hc with h1 | h1
      · exact hu c h1
      · simp only [List.mem_append, List.mem_singleton, List.mem_cons, List.not_mem_nil,
          or_false] at h1
        rcases h1 with h1 | h1 <;> subst h1 <;> rfl
    · cases h
      exact ⟨hcore, l, hl, hu⟩

/-- A returning `uploadTexture` writes none of the core members and only adds calls, none of
them a readback; when there is an image to upload one of the calls is an upload. -/
theorem uploadTexture_core (ops : ImageOps) (Driver : COpenGLDriver) (s s' : COpenGLTexture)
    (w w' : World) (newTexture : Bool) (mipmapData : Option (List Nat)) (level : Nat)
    (h : uploadTexture ops Driver s w newTexture mipmapData level = Outcome.ok (s', w')) :
    sameCore s' s ∧ ∃ l, w'.calls = w.calls ++ l ∧ (∀ c ∈ l, c.isReadback = false) ∧
      ((if level ≠ 0 then s.MipImage else s.Image) ≠ none → ∃ c ∈ l, c.isUpload = true) := by
  unfold uploadTexture at h
  split at h
  · rename_i hnone
    cases h
    exact ⟨sameCore_refl _, [], by simp, by simp, fun hne => absurd hnone hne⟩
  · rename_i image himg
    dsimp only at h
    by_cases hl : level = 0 ∧ newTexture = true
    · simp only [if_pos hl] at h
      generalize hA : uploadMipmapSetup Driver _ _ mipmapData = A at h
      have hAc : sameCore A.1 s := by
        rw [← hA]
        exact sameCore_trans (uploadMipmapSetup_core _ _ _ _)
          ⟨rfl, rfl, rfl, rfl, rfl, rfl, rfl, rfl, rfl, rfl, rfl, rfl⟩
      obtain ⟨l1, hl1, hu1⟩ : ∃ l, A.2.calls = w.calls ++ l ∧
          ∀ c ∈ l, c.isUpload = false ∧ c.isReadback = false := by
        rw [← hA]
        exact uploadMipmapSetup_calls _ _ _ _
      obtain ⟨c, hc, hcu⟩ := uploadImage_calls A.1 A.2 image newTexture level
      cases hr : uploadMipmaps ops A.1 (uploadImage A.1 A.2 image newTexture level) image
          mipmapData with
      | fault f => rw [hr] at h; cases h
      | ok r =>
        obtain ⟨s1, w1⟩ := r
        rw [hr] at h
        cases h
        obtain ⟨hcore, l2, hl2, hu2⟩ := uploadMipmaps_core ops _ _ _ _ _ _ hr
        refine ⟨sameCore_trans hcore hAc, l1 ++ c :: l2, ?_, ?_, ?_⟩
        · show w1.calls = _
          rw [hl2, hc, hl1]
          simp only [List.append_assoc, List.singleton_append]
        · intro c' hc'
          rcases List.mem_append.1 hc' with h1 | h1
          · exact (hu1 c' h1).2
          · rcases List.mem_cons.1 h1 with h2 | h2
            · subst h2
              cases c' <;> simp_all [GLCall.isUpload, GLCall.isReadback]
            · exact hu2 c' h2
        · intro _
          exact ⟨c, by simp, hcu⟩
    · simp only [if_neg hl] at h
      cases h
      obtain ⟨c, hc, hcu⟩ := uploadImage_calls
        { s with
          InternalFormat := if (!newTexture) = true then s.InternalFormat
            else (getOpenGLFormatAndParametersFromColorFormat Driver
              s.ColorFormat).internalformat,
          PixelFormat := (getOpenGLFormatAndParametersFromColorFormat Driver
            s.ColorFormat).colorformat,
          PixelType := (getOpenGLFormatAndParametersFromColorFormat Driver s.ColorFormat).type }
        (w.TextureCache_set 0 (some (COpenGLTexture.handle
          { s with
            InternalFormat := if (!newTexture) = true then s.InternalFormat
              else (getOpenGLFormatAndParametersFromColorFormat Driver
                s.ColorFormat).internalformat,
            PixelFormat := (getOpenGLFormatAndParametersFromColorFormat Driver
              s.ColorFormat).colorformat,
            PixelType :=
              (getOpenGLFormatAndParametersFromColorFormat Driver s.ColorFormat).type })))
        image newTexture level
      refine ⟨⟨rfl, rfl, rfl, rfl, rfl, rfl, rfl, rfl, rfl, rfl, rfl, rfl⟩, [c], ?_, ?_, ?_⟩
      · exact hc
      · intro c' hc'
        rw [List.mem_singleton.1 hc']
        cases c <;> simp_all [GLCall.isUpload, GLCall.isReadback]
      · intro _
        exact ⟨c, by simp, hcu⟩

/-! ## The image constructor -/

/-- With a null source image the image constructor reaches `origImage->copyTo(Image)`, after
`createImage`, and dereferences the null pointer. -/
theorem ofImage_null_faults (ops : ImageOps) (Driver : COpenGLDriver) (This : Nat) (w : World)
    (mipmapData : Option (List Nat)) :
    COpenGLTexture.ofImage ops Driver This w none mipmapData =
      Outcome.fault Fault.nullImage := by
  rfl

/-- C1 (code bug): for a source image of width 0 and height 5 the image constructor does not
stop after `getImageValues` has returned early: it returns a texture with the native handle 1,
holding a CPU image, after one `glTexImage2D` upload. -/
theorem ofImage_zero_width_still_builds :
    (COpenGLTexture.ofImage noOps plainDriver 1 emptyWorld (some zeroWidthImage) none).get?.map
        (fun r => (r.1.TextureName, r.1.Image.isSome, r.2.calls)) =
      some (1, true,
        [GLCall.glGenTextures 1,
         GLCall.glTexParameteri GL_TEXTURE_2D GL_TEXTURE_MIN_FILTER GL_LINEAR,
         GLCall.glTexParameteri GL_TEXTURE_2D GL_TEXTURE_MAG_FILTER GL_LINEAR,
         GLCall.glTexImage2D 0 GL_RGBA 0 0 GL_BGRA_EXT GL_UNSIGNED_INT_8_8_8_8_REV
           (some [])]) := by
  decide

/-- `getImageValues` for an image of non-zero size, in one record update. -/
theorem getImageValues_nonzero (Driver : COpenGLDriver) (s : COpenGLTexture) (image : IImage)
    (hW : image.Size.Width ≠ 0) (hH : image.Size.Height ≠ 0) :
    getImageValues Driver s (some image) =
      { s with
        OriginalSize := clampOriginalSize Driver.MaxTextureSize image.Size,
        Size := (clampOriginalSize Driver.MaxTextureSize image.Size).getOptimalSize
          (!Driver.queryFeature EVDF_TEXTURE_NPOT),
        ColorFormat := if isCompressedFormat image.Format then image.Format
          else getBestColorFormat Driver image.Format } := by
  simp only [getImageValues, hW, hH, or_self, if_false]
  split <;> rfl

/-- `getImageValues` writes only the two sizes and the colour format. -/
theorem getImageValues_frame (Driver : COpenGLDriver) (s : COpenGLTexture)
    (image : Option IImage) :
    (getImageValues Driver s image).IsCompressed = s.IsCompressed ∧
    (getImageValues Driver s image).TextureName = s.TextureName ∧
    (getImageValues Driver s image).Image = s.Image ∧
    (getImageValues Driver s image).KeepImage = s.KeepImage := by
  unfold getImageValues
  cases image with
  | none => exact ⟨rfl, rfl, rfl, rfl⟩
  | some image =>
    dsimp only
    split_ifs <;> exact ⟨rfl, rfl, rfl, rfl⟩

/-- The colour format chosen for a source image that is not block-compressed is not
block-compressed. -/
theorem getBestColorFormat_not_compressed (Driver : COpenGLDriver) (format : ECOLOR_FORMAT) :
    isCompressedFormat (getBestColorFormat Driver format) = false := by
  cases format <;> simp only [getBestColorFormat] <;>
    cases Driver.getTextureCreationFlag ETCF_NO_ALPHA_CHANNEL <;>
    cases Driver.getTextureCreationFlag ETCF_ALWAYS_32_BIT <;>
    cases Driver.getTextureCreationFlag ETCF_ALWAYS_16_BIT <;>
    cases Driver.getTextureCreationFlag ETCF_OPTIMIZED_FOR_SPEED <;> rfl

/-- What a returning `constructFinish` leaves: the sizes and the compression flag as given,
the handle freshly generated, and calls that start with `glGenTextures`. -/
theorem constructFinish_core (ops : ImageOps) (Driver : COpenGLDriver) (s s' : COpenGLTexture)
    (w w' : World) (mipmapData : Option (List Nat))
    (h : constructFinish ops Driver s w mipmapData = Outcome.ok (s', w')) :
    s'.OriginalSize = s.OriginalSize ∧ s'.Size = s.Size ∧ s'.IsCompressed = s.IsCompressed ∧
    s'.TextureName = w.genCount + 1 ∧ (s.KeepImage = false → s'.Image = none) ∧
    ∃ new, w'.calls = w.calls ++ GLCall.glGenTextures (w.genCount + 1) :: new ∧
      ∃ c ∈ new, c.isUpload = true := by
  unfold constructFinish at h
  split at h
  · cases h
  · rename_i Image hI
    dsimp only at h
    generalize hu : uploadTexture ops Driver _ _ true mipmapData 0 = r at h
    cases r with
    | fault f => cases h
    | ok r =>
      obtain ⟨s1, w1⟩ := r
      dsimp only at h
      obtain ⟨hcore, l, hl, _, hup⟩ := uploadTexture_core ops Driver _ _ _ _ _ _ _ hu
      obtain ⟨_, c2, c3, _, _, _, _, c8, _, c10, _, c12⟩ := hcore
      have hup' := hup (by simp [hI])
      have hcalls : w1.calls = w.calls ++ GLCall.glGenTextures (w.genCount + 1) :: l := by
        rw [hl]
        simp [World.glGenTextures]
      split at h
      · cases h
        exact ⟨c2, c3, c10, c8, fun _ => rfl, l, hcalls, hup'⟩
      · rename_i hk
        cases h
        refine ⟨c2, c3, c10, c8, fun hk' => ?_, l, hcalls, hup'⟩
        rw [c12] at hk
        simp [hk'] at hk

/-- `constructFinish` returns when the texture holds an image with both dimensions at least
1. -/
theorem constructFinish_returns (ops : ImageOps) (Driver : COpenGLDriver) (s : COpenGLTexture)
    (w : World) (mipmapData : Option (List Nat)) (Image : IImage) (hI : s.Image = some Image)
    (hW : 1 ≤ Image.Size.Width) (hH : 1 ≤ Image.Size.Height) :
    ∃ s' w', constructFinish ops Driver s w mipmapData = Outcome.ok (s', w') := by
  unfold constructFinish
  split
  · rename_i hnone
    rw [hI] at hnone
    cases hnone
  · rename_i Image' hI'
    have e : Image' = Image := Option.some.inj (hI'.symm.trans hI)
    subst e
    dsimp only
    obtain ⟨s1, w1, h1⟩ := uploadTexture_returns ops Driver
      { s with Pitch := Image'.Pitch, TextureName := w.glGenTextures.1 } w.glGenTextures.2
      true mipmapData 0
      (fun image hi => by
        have e : Image' = image := Option.some.inj (hI.symm.trans hi)
        subst e
        exact ⟨hW, hH⟩)
    rw [h1]
    dsimp only
    split_ifs
    · exact ⟨_, _, rfl⟩
    · exact ⟨_, _, rfl⟩
/-- The state of the image constructor after `getImageValues` and the `HasAlpha` switch. -/
theorem ofImage_eq (ops : ImageOps) (Driver : COpenGLDriver) (This : Nat) (w : World)
    (origImage : Option IImage) (mipmapData : Option (List Nat)) :
    ∃ s1 : COpenGLTexture,
      s1.IsCompressed = false ∧ s1.TextureName = 0 ∧ s1.Image = none ∧ s1.KeepImage = true ∧
      (∀ image, origImage = some image → image.Size.Width ≠ 0 → image.Size.Height ≠ 0 →
        s1.OriginalSize = clampOriginalSize Driver.MaxTextureSize image.Size ∧
        s1.Size = (clampOriginalSize Driver.MaxTextureSize image.Size).getOptimalSize
          (!Driver.queryFeature EVDF_TEXTURE_NPOT) ∧
        s1.ColorFormat = if isCompressedFormat image.Format then image.Format
          else getBestColorFormat Driver image.Format) ∧
      COpenGLTexture.ofImage ops Driver This w origImage mipmapData =
        if isCompressedFormat s1.ColorFormat then
          if !Driver.queryFeature EVDF_TEXTURE_COMPRESSED_DXT then Outcome.ok (s1, w)
          else if s1.OriginalSize ≠ s1.Size then Outcome.ok (s1, w)
          else
            match origImage with
            | none => Outcome.fault Fault.nullImage
            | some orig =>
              constructFinish ops Driver
                { s1 with IsCompressed := true, Image := some orig, KeepImage := false } w
                mipmapData
        else if s1.OriginalSize = s1.Size then
          match origImage with
          | none => Outcome.fault Fault.nullImage
          | some orig =>
            constructFinish ops Driver
              { s1 with Image := some { createImage s1.ColorFormat s1.OriginalSize with
                  Data := ops.copyTo orig (createImage s1.ColorFormat s1.OriginalSize) } } w
              mipmapData
        else
          match origImage with
          | none => Outcome.fault Fault.nullImage
          | some orig =>
            constructFinish ops Driver
              { s1 with Image := some { createImage s1.ColorFormat s1.Size with
                  Data := ops.copyToScaling orig (createImage s1.ColorFormat s1.Size) } } w
              mipmapData := by
  refine ⟨_, ?_, ?_, ?_, ?_, ?_, rfl⟩
  · split_ifs <;> exact (getImageValues_frame Driver _ origImage).1
  · split_ifs <;> exact (getImageValues_frame Driver _ origImage).2.1
  · split_ifs <;> exact (getImageValues_frame Driver _ origImage).2.2.1
  · split_ifs <;> exact (getImageValues_frame Driver _ origImage).2.2.2
  · intro image hi hW hH
    subst hi
    rw [getImageValues_nonzero Driver _ image hW hH]
    split_ifs <;> exact ⟨rfl, rfl, rfl⟩
/-- The render target constructor leaves the texture uncompressed, without CPU images and
with the read-only flag clear. -/
theorem ofRenderTarget_flags (Driver : COpenGLDriver) (This : Nat) (w : World)
    (size : dimension2d) (format : ECOLOR_FORMAT) :
    (COpenGLTexture.ofRenderTarget Driver This w size format).1.IsCompressed = false ∧
    (COpenGLTexture.ofRenderTarget Driver This w size format).1.IsRenderTarget = true ∧
    (COpenGLTexture.ofRenderTarget Driver This w size format).1.Image = none ∧
    (COpenGLTexture.ofRenderTarget Driver This w size format).1.MipImage = none ∧
    (COpenGLTexture.ofRenderTarget Driver This w size format).1.ReadOnlyLock = false ∧
    (COpenGLTexture.ofRenderTarget Driver This w size format).1.KeepImage = false := by
  unfold COpenGLTexture.ofRenderTarget
  dsimp only
  split_ifs <;> exact ⟨rfl, rfl, rfl, rfl, rfl, rfl⟩

/-- C7: for a source image of non-zero size in a block-compressed format, the image
constructor marks the texture compressed, generates a native handle and uploads when the
driver supports DXT compression and the clamped original size equals the GPU-adjusted size;
in every other case it returns with the handle 0, `IsCompressed` false, no CPU image and no
call made.  Consequently every texture a constructor returns with `IsCompressed` set has
`OriginalSize` equal to `Size`. -/
theorem ofImage_compressed_source (ops : ImageOps) (Driver : COpenGLDriver) (This : Nat)
    (w : World) (image : IImage) (mipmapData : Option (List Nat))
    (hfmt : isCompressedFormat image.Format = true)
    (hW : image.Size.Width ≠ 0) (hH : image.Size.Height ≠ 0) :
    ((Driver.queryFeature EVDF_TEXTURE_COMPRESSED_DXT = true ∧
        clampOriginalSize Driver.MaxTextureSize image.Size =
          (clampOriginalSize Driver.MaxTextureSize image.Size).getOptimalSize
            (!Driver.queryFeature EVDF_TEXTURE_NPOT)) →
      ∃ s' w' new,
        COpenGLTexture.ofImage ops Driver This w (some image) mipmapData =
          Outcome.ok (s', w') ∧
        s'.IsCompressed = true ∧ s'.TextureName = w.genCount + 1 ∧ s'.TextureName ≠ 0 ∧
        w'.calls = w.calls ++ GLCall.glGenTextures (w.genCount + 1) :: new ∧
        (∃ c ∈ new, c.isUpload = true) ∧
        s'.OriginalSize = s'.Size) ∧
    (¬ (Driver.queryFeature EVDF_TEXTURE_COMPRESSED_DXT = true ∧
        clampOriginalSize Driver.MaxTextureSize image.Size =
          (clampOriginalSize Driver.MaxTextureSize image.Size).getOptimalSize
            (!Driver.queryFeature EVDF_TEXTURE_NPOT)) →
      ∃ s',
        COpenGLTexture.ofImage ops Driver This w (some image) mipmapData =
          Outcome.ok (s', w) ∧
        s'.TextureName = 0 ∧ s'.IsCompressed = false ∧ s'.Image = none) ∧
    (∀ (origImage : Option IImage) (md : Option (List Nat)) (s' : COpenGLTexture)
        (w' : World),
      COpenGLTexture.ofImage ops Driver This w origImage md = Outcome.ok (s', w') →
      s'.IsCompressed = true → s'.OriginalSize = s'.Size) ∧
    (∀ (size : dimension2d) (format : ECOLOR_FORMAT),
      (COpenGLTexture.ofRenderTarget Driver This w size format).1.IsCompressed = false) := by
  refine ⟨?_, ?_, ?_, fun size format => (ofRenderTarget_flags Driver This w size format).1⟩
  · rintro ⟨hdxt, hsize⟩
    obtain ⟨s1, h1, h2, h3, h4, hv, heq⟩ :=
      ofImage_eq ops Driver This w (some image) mipmapData
    obtain ⟨v1, v2, v3⟩ := hv image rfl hW hH
    rw [hfmt, if_pos rfl] at v3
    have hne : ¬ (s1.OriginalSize ≠ s1.Size) := by
      rw [v1, v2]
      exact fun hc => hc hsize
    have hcf : isCompressedFormat s1.ColorFormat = true := by rw [v3]; exact hfmt
    rw [heq, hcf, if_pos rfl, hdxt]
    simp only [Bool.not_true, Bool.false_eq_true, if_false, if_neg hne]
    obtain ⟨s', w', hr⟩ := constructFinish_returns ops Driver
      { s1 with IsCompressed := true, Image := some image, KeepImage := false } w mipmapData
      image rfl (Nat.pos_of_ne_zero hW) (Nat.pos_of_ne_zero hH)
    obtain ⟨c1, c2, c3, c4, _, new, c6, c7⟩ := constructFinish_core ops Driver _ _ _ _ _ hr
    refine ⟨s', w', new, hr, c3, c4, by omega, c6, c7, ?_⟩
    rw [c1, c2]
    exact not_not.1 hne
  · intro hnot
    obtain ⟨s1, h1, h2, h3, h4, hv, heq⟩ :=
      ofImage_eq ops Driver This w (some image) mipmapData
    obtain ⟨v1, v2, v3⟩ := hv image rfl hW hH
    rw [hfmt, if_pos rfl] at v3
    refine ⟨s1, ?_, h2, h1, h3⟩
    have hcf : isCompressedFormat s1.ColorFormat = true := by rw [v3]; exact hfmt
    rw [heq, hcf, if_pos rfl]
    cases hdxt : Driver.queryFeature EVDF_TEXTURE_COMPRESSED_DXT with
    | false => simp
    | true =>
      have hne : s1.OriginalSize ≠ s1.Size := by
        rw [v1, v2]
        exact fun hc => hnot ⟨hdxt, hc⟩
      simp [hne]
  · intro origImage md s' w' hr hc
    obtain ⟨s1, h1, h2, h3, h4, _, heq⟩ := ofImage_eq ops Driver This w origImage md
    rw [heq] at hr
    split at hr
    · split at hr
      · cases hr
        rw [h1] at hc
        cases hc
      · split at hr
        · cases hr
          rw [h1] at hc
          cases hc
        · rename_i hne
          split at hr
          · cases hr
          · obtain ⟨c1, c2, _⟩ := constructFinish_core ops Driver _ _ _ _ _ hr
            rw [c1, c2]
            exact not_not.1 hne
    · split at hr
      · split at hr
        · cases hr
        · obtain ⟨_, _, c3, _⟩ := constructFinish_core ops Driver _ _ _ _ _ hr
          rw [c3] at hc
          exact absurd (h1.symm.trans hc) (by decide)
      · split at hr
        · cases hr
        · obtain ⟨_, _, c3, _⟩ := constructFinish_core ops Driver _ _ _ _ _ hr
          rw [c3] at hc
          exact absurd (h1.symm.trans hc) (by decide)

/-- A 4 x 4 DXT1 image on a driver with DXT compression becomes a compressed texture with a
handle and an upload. -/
theorem ofImage_compressed_source_witness :
    ∃ s' w' new,
      COpenGLTexture.ofImage noOps dxtDriver 1 emptyWorld (some dxtImage) none =
        Outcome.ok (s', w') ∧
      s'.IsCompressed = true ∧ s'.TextureName = emptyWorld.genCount + 1 ∧
      s'.TextureName ≠ 0 ∧
      w'.calls = emptyWorld.calls ++ GLCall.glGenTextures (emptyWorld.genCount + 1) :: new ∧
      (∃ c ∈ new, c.isUpload = true) ∧
      s'.OriginalSize = s'.Size :=
  (ofImage_compressed_source noOps dxtDriver 1 emptyWorld dxtImage none rfl (by decide)
    (by decide)).1 ⟨rfl, by decide⟩

/-! ## The row flip of lock -/

/-- The bytes a `memcpy` reads. -/
theorem readBytes_getElem? (buf : List Nat) (n m j : Nat) :
    (readBytes buf (n : Int) m)[j]? = if j < m then buf[n + j]? else none := by
  simp only [readBytes, Int.toNat_ofNat, List.getElem?_take, List.getElem?_drop]

/-- The length of what a `memcpy` reads inside the buffer. -/
theorem readBytes_length (buf : List Nat) (n m : Nat) (h : n + m ≤ buf.length) :
    (readBytes buf (n : Int) m).length = m := by
  simp only [readBytes, Int.toNat_ofNat, List.length_take, List.length_drop]
  omega

/-- A `memcpy` into the buffer keeps its length. -/
theorem writeBytes_length (buf bs : List Nat) (n : Nat) (h : n + bs.length ≤ buf.length) :
    (writeBytes buf (n : Int) bs).length = buf.length := by
  simp only [writeBytes, Int.toNat_ofNat, List.length_append, List.length_take,
    List.length_drop]
  omega

/-- The bytes of the buffer after a `memcpy` into it. -/
theorem writeBytes_getElem? (buf bs : List Nat) (n j : Nat) (h : n + bs.length ≤ buf.length) :
    (writeBytes buf (n : Int) bs)[j]? =
      if j < n then buf[j]? else if j < n + bs.length then bs[j - n]? else buf[j]? := by
  have hl : (List.take n buf).length = n := by
    rw [List.length_take]
    omega
  simp only [writeBytes, Int.toNat_ofNat, List.append_assoc]
  rw [List.getElem?_append, hl]
  by_cases h1 : j < n
  · rw [if_pos h1, if_pos h1, List.getElem?_take, if_pos h1]
  · rw [if_neg h1, if_neg h1, List.getElem?_append]
    by_cases h2 : j < n + bs.length
    · rw [if_pos (by omega), if_pos h2]
    · rw [if_neg (by omega), if_neg h2, List.getElem?_drop]
      congr 1
      omega

/-- A byte index `r * p + c` with `c < p` lies in row `b` exactly when `r = b`. -/
theorem row_index_iff (p r b c : Nat) (hc : c < p) :
    (b * p ≤ r * p + c ∧ r * p + c < b * p + p) ↔ r = b := by
  constructor
  · rintro ⟨h1, h2⟩
    by_contra hne
    rcases Nat.lt_or_gt_of_ne hne with h | h
    · have : (r + 1) * p ≤ b * p := Nat.mul_le_mul_right p h
      rw [Nat.add_mul, Nat.one_mul] at this
      omega
    · have : (b + 1) * p ≤ r * p := Nat.mul_le_mul_right p h
      rw [Nat.add_mul, Nat.one_mul] at this
      omega
  · rintro rfl
    omega

/-- One round of the flip loop on rows `a` and `b` of a buffer of `H` rows: the buffer keeps
its length, row `b` gets the old row `a`, row `a` the old row `b`, and every other row stays. -/
theorem swap_rows_spec (p H a b : Nat) (buf : List Nat) (hlen : buf.length = H * p)
    (ha : a < H) (hb : b < H) :
    (writeBytes (writeBytes buf ((a * p : Nat) : Int) (readBytes buf ((b * p : Nat) : Int) p))
      ((b * p : Nat) : Int) (readBytes buf ((a * p : Nat) : Int) p)).length = H * p ∧
    ∀ r c, r < H → c < p →
      (writeBytes (writeBytes buf ((a * p : Nat) : Int) (readBytes buf ((b * p : Nat) : Int) p))
        ((b * p : Nat) : Int) (readBytes buf ((a * p : Nat) : Int) p))[r * p + c]? =
        if r = b then buf[a * p + c]? else if r = a then buf[b * p + c]? else buf[r * p + c]? := by
  have hap : a * p + p ≤ H * p := by
    have : (a + 1) * p ≤ H * p := Nat.mul_le_mul_right p ha
    rw [Nat.add_mul, Nat.one_mul] at this
    exact this
  have hbp : b * p + p ≤ H * p := by
    have : (b + 1) * p ≤ H * p := Nat.mul_le_mul_right p hb
    rw [Nat.add_mul, Nat.one_mul] at this
    exact this
  have hra : (readBytes buf ((a * p : Nat) : Int) p).length = p :=
    readBytes_length buf _ _ (by omega)
  have hrb : (readBytes buf ((b * p : Nat) : Int) p).length = p :=
    readBytes_length buf _ _ (by omega)
  have hw1 : (writeBytes buf ((a * p : Nat) : Int)
      (readBytes buf ((b * p : Nat) : Int) p)).length = buf.length :=
    writeBytes_length buf _ _ (by omega)
  refine ⟨?_, ?_⟩
  · rw [writeBytes_length _ _ _ (by omega), hw1, hlen]
  · intro r c hr hc
    rw [writeBytes_getElem? _ _ _ _ (by omega), hra]
    by_cases hrb' : r = b
    · subst hrb'
      rw [if_neg (by omega), if_pos (by omega), if_pos rfl, readBytes_getElem?,
        if_pos (by omega)]
      congr 1
      omega
    · have hnb : ¬ (b * p ≤ r * p + c ∧ r * p + c < b * p + p) :=
        fun h => hrb' ((row_index_iff p r b c hc).1 h)
      rw [if_neg hrb']
      have e1 : (if r * p + c < b * p then
            (writeBytes buf ((a * p : Nat) : Int) (readBytes buf ((b * p : Nat) : Int) p))[r * p + c]?
          else if r * p + c < b * p + p then
            (readBytes buf ((a * p : Nat) : Int) p)[r * p + c - b * p]?
          else
            (writeBytes buf ((a * p : Nat) : Int)
              (readBytes buf ((b * p : Nat) : Int) p))[r * p + c]?) =
          (writeBytes buf ((a * p : Nat) : Int)
            (readBytes buf ((b * p : Nat) : Int) p))[r * p + c]? := by
        by_cases h1 : r * p + c < b * p
        · rw [if_pos h1]
        · rw [if_neg h1, if_neg (fun h2 => hnb ⟨by omega, h2⟩)]
      rw [e1, writeBytes_getElem? _ _ _ _ (by omega), hrb]
      by_cases hra' : r = a
      · subst hra'
        rw [if_neg (by omega), if_pos (by omega), if_pos rfl, readBytes_getElem?,
          if_pos (by omega)]
        congr 1
        omega
      · have hna : ¬ (a * p ≤ r * p + c ∧ r * p + c < a * p + p) :=
          fun h => hra' ((row_index_iff p r a c hc).1 h)
        rw [if_neg hra']
        by_cases h1 : r * p + c < a * p
        · rw [if_pos h1]
        · rw [if_neg h1, if_neg (fun h2 => hna ⟨by omega, h2⟩)]

/-- The counter of the flip loop stays where it is counted: below the wrap, `i += 2` adds 2. -/
theorem u32_add_two (i H : Nat) (hi : i < H) (hH : H < 2 ^ 32 - 1) : u32 (i + 2) = i + 2 := by
  unfold u32
  exact Nat.mod_eq_of_lt (by omega)

/-- For a height of at least `2^32 - 1` the flip loop never leaves: the counter is even and
below `2^32`, hence below the height, on every round. -/
theorem flipLoop_diverges (p H : Nat) (hH : 2 ^ 32 - 1 ≤ H) :
    ∀ (fuel i : Nat) (pixels p2 : Int) (buf : List Nat) (touched : List (Int × Nat)),
      i % 2 = 0 → i < 2 ^ 32 →
      flipLoop p H fuel i pixels p2 buf touched = none := by
  intro fuel
  induction fuel with
  | zero =>
    intro i pixels p2 buf touched he hi
    have hlt : i < H := by omega
    simp only [flipLoop, if_pos hlt]
  | succ fuel ih =>
    intro i pixels p2 buf touched he hi
    have hlt : i < H := by omega
    rw [flipLoop, if_pos hlt]
    apply ih
    · unfold u32
      omega
    · unfold u32
      exact Nat.mod_lt _ (by norm_num)

/-- For a height below `2^32 - 1` the flip loop leaves by its own test within the rounds
that the height allows. -/
theorem flipLoop_returns (p H : Nat) (hH : H < 2 ^ 32 - 1) :
    ∀ (fuel i : Nat) (pixels p2 : Int) (buf : List Nat) (touched : List (Int × Nat)),
      H ≤ i + 2 * fuel →
      ∃ r, flipLoop p H fuel i pixels p2 buf touched = some r := by
  intro fuel
  induction fuel with
  | zero =>
    intro i pixels p2 buf touched h
    have hi : ¬ i < H := by omega
    exact ⟨(buf, touched), by simp only [flipLoop, if_neg hi]⟩
  | succ fuel ih =>
    intro i pixels p2 buf touched h
    rw [flipLoop]
    by_cases hi : i < H
    · rw [if_pos hi, u32_add_two i H hi hH]
      exact ih _ _ _ _ _ (by omega)
    · rw [if_neg hi]
      exact ⟨_, rfl⟩

/-- The invariant of the flip loop, for a height below `2^32 - 1`.  After `k` rounds on a
buffer that started as `orig` the rows below `k` and the rows from `H - k` on hold the
mirrored rows of `orig` and the rows in between are untouched; from there the loop, with
enough fuel, ends with every row mirrored, the length unchanged and every copy inside the
buffer. -/
theorem flipLoop_inv (p H : Nat) (hH : H < 2 ^ 32 - 1) (orig : List Nat) :
    ∀ (fuel k : Nat) (cur : List Nat) (touched : List (Int × Nat)),
      cur.length = H * p →
      (∀ r c, r < H → c < p →
        cur[r * p + c]? = orig[(if r < k ∨ H ≤ r + k then H - 1 - r else r) * p + c]?) →
      (∀ a ∈ touched, 0 ≤ a.1 ∧ a.1 + (a.2 : Int) ≤ ((H * p : Nat) : Int)) →
      2 * k ≤ H + 1 → H ≤ 2 * (fuel + k) →
      ∃ out t,
        flipLoop p H fuel (2 * k) ((k * p : Nat) : Int)
          (((H : Int) - 1 - (k : Int)) * (p : Int)) cur touched = some (out, t) ∧
        out.length = H * p ∧
        (∀ r c, r < H → c < p → out[r * p + c]? = orig[(H - 1 - r) * p + c]?) ∧
        (∀ a ∈ t, 0 ≤ a.1 ∧ a.1 + (a.2 : Int) ≤ ((H * p : Nat) : Int)) := by
  intro fuel
  induction fuel with
  | zero =>
    intro k cur touched hlen hinv htouched _ hfuel
    have hi : ¬ 2 * k < H := by omega
    refine ⟨cur, touched, by simp only [flipLoop, if_neg hi], hlen, ?_, htouched⟩
    intro r c hr hc
    rw [hinv r c hr hc, if_pos (by omega)]
  | succ fuel ih =>
    intro k cur touched hlen hinv htouched hk hfuel
    rw [flipLoop]
    by_cases hi : 2 * k < H
    · rw [if_pos hi, u32_add_two _ H hi hH]
      have hb : ((H : Int) - 1 - (k : Int)) * (p : Int) = (((H - 1 - k) * p : Nat) : Int) := by
        have : ((H - 1 - k : Nat) : Int) = (H : Int) - 1 - (k : Int) := by omega
        rw [Nat.cast_mul, this]
      have e1 : 2 * k + 2 = 2 * (k + 1) := by ring
      have e2 : ((k * p : Nat) : Int) + (p : Int) = (((k + 1) * p : Nat) : Int) := by
        push_cast
        ring
      have e3 : ((H : Int) - 1 - (k : Int)) * (p : Int) - (p : Int) =
          ((H : Int) - 1 - ((k + 1 : Nat) : Int)) * (p : Int) := by
        push_cast
        ring
      obtain ⟨s1, s2⟩ := swap_rows_spec p H k (H - 1 - k) cur hlen (by omega) (by omega)
      have hkp : k * p + p ≤ H * p := by
        have : (k + 1) * p ≤ H * p := Nat.mul_le_mul_right p (by omega)
        rw [Nat.add_mul, Nat.one_mul] at this
        exact this
      have hbp : (H - 1 - k) * p + p ≤ H * p := by
        have : (H - 1 - k + 1) * p ≤ H * p := Nat.mul_le_mul_right p (by omega)
        rw [Nat.add_mul, Nat.one_mul] at this
        exact this
      rw [e1, e2, e3]
      rw [hb]
      apply ih (k + 1) _ _ s1
      · intro r c hr hc
        rw [s2 r c hr hc]
        by_cases h1 : r = H - 1 - k
        · rw [if_pos h1, if_pos (by omega), hinv k c (by omega) hc, if_neg (by omega)]
          have e : H - 1 - r = k := by omega
          rw [e]
        · rw [if_neg h1]
          by_cases h2 : r = k
          · rw [if_pos h2, if_pos (by omega), hinv (H - 1 - k) c (by omega) hc,
              if_neg (by omega), h2]
          · rw [if_neg h2, hinv r c hr hc]
            by_cases h3 : r < k ∨ H ≤ r + k
            · rw [if_pos h3, if_pos (by omega)]
            · rw [if_neg h3, if_neg (by omega)]
      · intro a ha
        rcases List.mem_append.1 ha with h | h
        · exact htouched a h
        · simp only [List.mem_cons, List.mem_singleton, List.not_mem_nil, or_false] at h
          rcases h with h | h | h | h <;> subst h <;> dsimp only <;> constructor <;>
            first | positivity | exact_mod_cast hkp | exact_mod_cast hbp
      · omega
      · omega
    · rw [if_neg hi]
      refine ⟨cur, touched, rfl, hlen, ?_, htouched⟩
      intro r c hr hc
      rw [hinv r c hr hc, if_pos (by omega)]

/-- More fuel than the loop needs changes nothing: the flip loop leaves by its own test. -/
theorem flipLoop_fuel (p H : Nat) (hH : H < 2 ^ 32 - 1) :
    ∀ (fuel extra i : Nat) (pixels p2 : Int) (buf : List Nat) (touched : List (Int × Nat)),
      H ≤ i + 2 * fuel →
      flipLoop p H (fuel + extra) i pixels p2 buf touched =
        flipLoop p H fuel i pixels p2 buf touched := by
  intro fuel
  induction fuel with
  | zero =>
    intro extra i pixels p2 buf touched h
    cases extra with
    | zero => rfl
    | succ extra =>
      have hi : ¬ i < H := by omega
      simp only [Nat.zero_add, flipLoop, if_neg hi]
  | succ fuel ih =>
    intro extra i pixels p2 buf touched h
    have e : fuel + 1 + extra = (fuel + extra) + 1 := by omega
    rw [e, flipLoop, flipLoop]
    by_cases hi : i < H
    · rw [if_pos hi, if_pos hi, u32_add_two i H hi hH]
      exact ih extra _ _ _ _ _ (by omega)
    · rw [if_neg hi, if_neg hi]

/-- A pitch below `2^31` is its own `s32` value. -/
theorem s32_of_lt (n : Nat) (h : n % 2 ^ 32 < 2 ^ 31) : s32 n = ((n % 2 ^ 32 : Nat) : Int) := by
  unfold s32
  rw [if_pos h]

/-- For a height below `2^32 - 1` and a pitch that is not negative as an `s32` the flip
returns, whatever the buffer holds. -/
theorem flipRows_returns (image : IImage) (buf : List Nat) (h : flipReturns image) :
    ∃ r, flipRows image buf = Outcome.ok r := by
  obtain ⟨hH, hP⟩ := h
  unfold flipRows
  dsimp only
  rw [s32_of_lt _ hP, if_neg (by omega)]
  obtain ⟨r, hr⟩ := flipLoop_returns (((image.Pitch % 2 ^ 32 : Nat) : Int)).toNat
    image.Size.Height hH image.Size.Height 0 0
    ((u32 (u32 (image.Size.Height + (2 ^ 32 - 1)) * u32 image.Pitch) : Nat) : Int) buf []
    (by omega)
  rw [hr]
  exact ⟨r, rfl⟩

/-- C11 (counterexample): a buffer of H = 2^32 - 1 rows of 0 bytes (the empty buffer of an
image of width 0) satisfies the claim's conditions, but the `u32` counter of the flip loop
wraps from 2^32 - 2 to 0 without ever reaching H: the loop does not end, with any fuel. -/
theorem flipRows_counter_wraps_counterexample :
    1 ≤ tallImage.Size.Height ∧
    ([] : List Nat).length = tallImage.Size.Height * tallImage.Pitch ∧
    (∀ fuel, flipLoop tallImage.Pitch tallImage.Size.Height fuel 0 0 0 [] [] = none) ∧
    flipRows tallImage [] = Outcome.fault Fault.diverges := by
  have h : ∀ fuel, flipLoop 0 tallImage.Size.Height fuel 0 0 0 [] [] = none :=
    fun fuel => flipLoop_diverges 0 tallImage.Size.Height (by decide) fuel 0 0 0 [] []
      (by norm_num) (by norm_num)
  refine ⟨by decide, by decide, h, ?_⟩
  have hp : s32 tallImage.Pitch = 0 := by decide
  have hp2 : ((u32 (u32 (tallImage.Size.Height + (2 ^ 32 - 1)) * u32 tallImage.Pitch) : Nat) :
      Int) = 0 := by decide
  unfold flipRows
  dsimp only
  rw [hp, hp2, if_neg (by decide), Int.toNat_zero, h]

/-- C11 (amended): for a level-0 buffer of H rows of `pitch` bytes with 1 <= H < 2^32 - 1,
pitch < 2^31 and (H - 1) * pitch < 2^32, the flip of `lock` returns, the loop ending by its
own test (any fuel of at least H gives the same result); it keeps the buffer's length,
leaves row r holding the original row H-1-r for every r below H (so the middle row of an odd
H is unchanged), and every `memcpy` it makes reads and writes inside the H*pitch bytes. -/
theorem flipRows_mirrors_rows (image : IImage) (buf : List Nat)
    (hH : 1 ≤ image.Size.Height) (hH32 : image.Size.Height < 2 ^ 32 - 1)
    (hP : image.Pitch < 2 ^ 31) (hoff : (image.Size.Height - 1) * image.Pitch < 2 ^ 32)
    (hlen : buf.length = image.Size.Height * image.Pitch) :
    ∃ out touched, flipRows image buf = Outcome.ok (out, touched) ∧
      (∀ fuel, image.Size.Height ≤ fuel →
        flipLoop image.Pitch image.Size.Height fuel 0 0
          (((image.Size.Height : Int) - 1) * (image.Pitch : Int)) buf [] =
            some (out, touched)) ∧
      out.length = image.Size.Height * image.Pitch ∧
      (∀ r, r < image.Size.Height →
        rowOf image.Pitch out r = rowOf image.Pitch buf (image.Size.Height - 1 - r)) ∧
      (∀ a ∈ touched,
        0 ≤ a.1 ∧ a.1 + (a.2 : Int) ≤ ((image.Size.Height * image.Pitch : Nat) : Int)) := by
  obtain ⟨out, t, key, k1, k2, k3⟩ :=
    flipLoop_inv image.Pitch image.Size.Height hH32 buf image.Size.Height 0 buf []
      hlen (fun r c hr _ => by rw [if_neg (by omega)]) (by simp) (by omega) (by omega)
  have e0 : ((0 * image.Pitch : Nat) : Int) = 0 := by simp
  have e1 : ((image.Size.Height : Int) - 1 - ((0 : Nat) : Int)) * (image.Pitch : Int) =
      ((image.Size.Height : Int) - 1) * (image.Pitch : Int) := by simp
  rw [Nat.mul_zero, e0, e1] at key
  have hmod : image.Pitch % 2 ^ 32 = image.Pitch := Nat.mod_eq_of_lt (by omega)
  have hs : s32 image.Pitch = (image.Pitch : Int) := by
    rw [s32_of_lt _ (by omega), hmod]
  have hp2 : ((u32 (u32 (image.Size.Height + (2 ^ 32 - 1)) * u32 image.Pitch) : Nat) : Int) =
      ((image.Size.Height : Int) - 1) * (image.Pitch : Int) := by
    have a1 : u32 (image.Size.Height + (2 ^ 32 - 1)) = image.Size.Height - 1 := by
      unfold u32
      omega
    have a2 : u32 image.Pitch = image.Pitch := hmod
    have a3 : u32 ((image.Size.Height - 1) * image.Pitch) =
        (image.Size.Height - 1) * image.Pitch := Nat.mod_eq_of_lt hoff
    have a4 : ((image.Size.Height - 1 : Nat) : Int) = (image.Size.Height : Int) - 1 := by
      omega
    rw [a1, a2, a3, Nat.cast_mul, a4]
  refine ⟨out, t, ?_, ?_, k1, ?_, k3⟩
  · unfold flipRows
    dsimp only
    rw [hs, hp2]
    rw [if_neg (by omega)]
    rw [Int.toNat_ofNat]
    rw [key]
  · intro fuel hf
    obtain ⟨extra, rfl⟩ : ∃ extra, fuel = image.Size.Height + extra :=
      ⟨fuel - image.Size.Height, by omega⟩
    rw [flipLoop_fuel _ _ hH32 _ _ _ _ _ _ _ (by omega)]
    exact key
  · intro r hr
    apply List.ext_getElem?
    intro c
    simp only [rowOf, List.getElem?_take, List.getElem?_drop]
    by_cases hc : c < image.Pitch
    · rw [if_pos hc, if_pos hc]
      exact k2 r c hr hc
    · rw [if_neg hc, if_neg hc]

/-- The flip of the 4 x 2 image's buffer of 2 rows of 16 bytes. -/
theorem flipRows_mirrors_rows_witness :
    ∃ out touched, flipRows image4x2 (List.range 32) = Outcome.ok (out, touched) ∧
      (∀ fuel, image4x2.Size.Height ≤ fuel →
        flipLoop image4x2.Pitch image4x2.Size.Height fuel 0 0
          (((image4x2.Size.Height : Int) - 1) * (image4x2.Pitch : Int)) (List.range 32) [] =
            some (out, touched)) ∧
      out.length = image4x2.Size.Height * image4x2.Pitch ∧
      (∀ r, r < image4x2.Size.Height →
        rowOf image4x2.Pitch out r =
          rowOf image4x2.Pitch (List.range 32) (image4x2.Size.Height - 1 - r)) ∧
      (∀ a ∈ touched,
        0 ≤ a.1 ∧ a.1 + (a.2 : Int) ≤ ((image4x2.Size.Height * image4x2.Pitch : Nat) : Int)) :=
  flipRows_mirrors_rows image4x2 (List.range 32) (by decide) (by decide) (by decide)
    (by decide) (by decide)

/-! ## lock and unlock -/

/-- What the download inside `lock` leaves when it returns: the calls made, the binding
cache, the binding and the GPU store as they were, the image's size and pitch kept, and in
the image's buffer the bytes read back, flipped by `flipRows` at level 0 when the driver has
no pack-invert extension. -/
theorem lockDownload_spec (Driver : COpenGLDriver) (s : COpenGLTexture) (w : World)
    (image : IImage) (mipmapLevel : Nat) (r : IImage × World)
    (h : lockDownload Driver s w image mipmapLevel = Outcome.ok r) :
    r.2.calls = w.calls ++ lockDownloadCalls Driver s.TextureName w.boundTexture mipmapLevel ∧
    r.2.TextureCache = w.TextureCache ∧
    r.2.boundTexture = w.boundTexture ∧
    r.2.texImage = w.texImage ∧
    r.1.Size = image.Size ∧
    r.1.Pitch = image.Pitch ∧
    ((mipmapLevel ≠ 0 ∨ (Driver.has_GL_MESA_pack_invert &&
        Driver.queryOpenGLFeature IRR_MESA_pack_invert) = true) →
      r.1.Data = lockReadback Driver s w image mipmapLevel) ∧
    ((mipmapLevel = 0 ∧ (Driver.has_GL_MESA_pack_invert &&
        Driver.queryOpenGLFeature IRR_MESA_pack_invert) = false) →
      ∃ t, flipRows image (lockReadback Driver s w image mipmapLevel) =
        Outcome.ok (r.1.Data, t)) := by
  unfold lockDownload at h
  unfold lockDownloadCalls lockReadback
  dsimp only at h ⊢
  by_cases h0 : mipmapLevel = 0
  · cases hinv : (Driver.has_GL_MESA_pack_invert &&
        Driver.queryOpenGLFeature IRR_MESA_pack_invert)
    · rw [hinv] at h
      simp only [if_pos h0, Bool.false_eq_true, and_false, if_false] at h ⊢
      generalize hf : flipRows image _ = fr at h
      cases fr with
      | fault e => cases h
      | ok f =>
        obtain rfl := Outcome.ok.inj h
        refine ⟨?_, rfl, rfl, rfl, rfl, rfl, ?_, ?_⟩
        · simp [World.glBindTexture, World.glGetTexImage, World.emit]
        · rintro (hc | hc)
          · exact absurd h0 hc
          · cases hc
        · intro _
          exact ⟨f.2, rfl⟩
    · rw [hinv] at h
      simp only [if_pos h0, and_true, if_true] at h ⊢
      obtain rfl := Outcome.ok.inj h
      refine ⟨?_, rfl, rfl, rfl, rfl, rfl, fun _ => rfl, ?_⟩
      · simp [World.glBindTexture, World.glGetTexImage, World.glPixelStorei_PACK_INVERT,
          World.emit]
      · rintro ⟨_, hc⟩
        cases hc
  · have hn : ¬ (mipmapLevel = 0 ∧ (Driver.has_GL_MESA_pack_invert &&
        Driver.queryOpenGLFeature IRR_MESA_pack_invert) = true) := fun hc => h0 hc.1
    simp only [if_neg h0, if_neg hn] at h ⊢
    obtain rfl := Outcome.ok.inj h
    refine ⟨?_, rfl, rfl, rfl, rfl, rfl, fun _ => rfl, ?_⟩
    · simp [World.glBindTexture, World.glGetTexImage, World.emit]
    · rintro ⟨hc, _⟩
      exact absurd hc h0

/-- The download inside `lock` returns when the flip does: at a mip level, with the
pack-invert extension, or for an image whose height and pitch keep the flip loop finite. -/
theorem lockDownload_returns (Driver : COpenGLDriver) (s : COpenGLTexture) (w : World)
    (image : IImage) (mipmapLevel : Nat)
    (hb : mipmapLevel = 0 → (Driver.has_GL_MESA_pack_invert &&
      Driver.queryOpenGLFeature IRR_MESA_pack_invert) = false → flipReturns image) :
    ∃ r, lockDownload Driver s w image mipmapLevel = Outcome.ok r := by
  unfold lockDownload
  dsimp only
  by_cases h0 : mipmapLevel = 0
  · cases hinv : (Driver.has_GL_MESA_pack_invert &&
        Driver.queryOpenGLFeature IRR_MESA_pack_invert)
    · simp only [if_pos h0, Bool.false_eq_true, and_false, if_false]
      obtain ⟨f, hf⟩ := flipRows_returns image
        ((w.glBindTexture s.TextureName).glGetTexImage mipmapLevel GL_BGRA_EXT
          GL_UNSIGNED_BYTE image.Pitch image.Size.Height image.Data).1 (hb h0 hinv)
      rw [hf]
      exact ⟨_, rfl⟩
    · simp only [if_pos h0, and_true, if_true]
      exact ⟨_, rfl⟩
  · have hn : ¬ (mipmapLevel = 0 ∧ (Driver.has_GL_MESA_pack_invert &&
        Driver.queryOpenGLFeature IRR_MESA_pack_invert) = true) := fun hc => h0 hc.1
    simp only [if_neg h0, if_neg hn]
    exact ⟨_, rfl⟩

/-- The automatic-mipmap block of `lock` writes `AutomaticMipmapUpdate` only. -/
theorem lockAutoMipmap_state (Driver : COpenGLDriver) (s : COpenGLTexture) (w : World)
    (mipmapLevel : Nat) :
    ∃ b, (lockAutoMipmap Driver s w mipmapLevel).1 = { s with AutomaticMipmapUpdate := b } := by
  unfold lockAutoMipmap
  split_ifs <;> first | exact ⟨false, rfl⟩ | exact ⟨s.AutomaticMipmapUpdate, rfl⟩

/-- The world after the automatic-mipmap block of `lock`. -/
theorem lockAutoMipmap_world (Driver : COpenGLDriver) (s : COpenGLTexture) (w : World)
    (mipmapLevel : Nat) :
    (lockAutoMipmap Driver s w mipmapLevel).2 =
      { w with calls := w.calls ++
          (if (!s.ReadOnlyLock ∧ mipmapLevel ≠ 0) ∧
            (Driver.has_GL_SGIS_generate_mipmap &&
              Driver.queryFeature EVDF_MIP_MAP_AUTO_UPDATE) = true
          then [GLCall.glTexParameteri GL_TEXTURE_2D GL_GENERATE_MIPMAP GL_FALSE] else []) } := by
  unfold lockAutoMipmap
  split_ifs <;> simp_all [World.emit]

/-- The storage block of `lock` creates the image for the level and leaves the other image
and the flags alone. -/
theorem lockStorage_spec (s : COpenGLTexture) (mipmapLevel : Nat) :
    (lockStorage s mipmapLevel).1.IsCompressed = s.IsCompressed ∧
    (lockStorage s mipmapLevel).1.ReadOnlyLock = s.ReadOnlyLock ∧
    (lockStorage s mipmapLevel).1.MipLevelStored = s.MipLevelStored ∧
    (lockStorage s mipmapLevel).1.KeepImage = s.KeepImage ∧
    (lockStorage s mipmapLevel).1.IsRenderTarget = s.IsRenderTarget ∧
    (lockStorage s mipmapLevel).1.TextureName = s.TextureName ∧
    (lockStorage s mipmapLevel).1.This = s.This ∧
    (lockStorage s mipmapLevel).1.InternalFormat = s.InternalFormat ∧
    (mipmapLevel = 0 → (lockStorage s mipmapLevel).1.MipImage = s.MipImage ∧
      (lockStorage s mipmapLevel).1.Image = some (lockStorage s mipmapLevel).2) ∧
    (mipmapLevel ≠ 0 → (lockStorage s mipmapLevel).1.Image = s.Image ∧
      (lockStorage s mipmapLevel).1.MipImage = some (lockStorage s mipmapLevel).2) := by
  unfold lockStorage
  by_cases h : mipmapLevel = 0
  · simp [h]
  · simp [h]

/-- The readback of `lock` reads the texture's name only. -/
theorem lockReadback_congr (Driver : COpenGLDriver) (s s' : COpenGLTexture) (w : World)
    (calls : List GLCall) (image : IImage) (mipmapLevel : Nat)
    (hn : s'.TextureName = s.TextureName) :
    lockReadback Driver s' { w with calls := calls } image mipmapLevel =
      lockReadback Driver s w image mipmapLevel := by
  unfold lockReadback
  rw [hn]
  split_ifs <;> rfl

/-- What the fetch block of `lock` leaves in the texture object and in the world when it
returns; unless the mode is write-only, the image of the level then holds the bytes read
back (flipped at level 0 without the pack-invert extension). -/
theorem lockFetch_spec (Driver : COpenGLDriver) (s : COpenGLTexture) (w : World)
    (image : Option IImage) (mode : E_TEXTURE_LOCK_MODE) (mipmapLevel : Nat)
    (himg : image = if mipmapLevel = 0 then s.Image else s.MipImage)
    (r : COpenGLTexture × World)
    (h : lockFetch Driver s w image mode mipmapLevel = Outcome.ok r) :
    r.1.IsCompressed = s.IsCompressed ∧
    r.1.ReadOnlyLock = s.ReadOnlyLock ∧
    r.1.MipLevelStored = s.MipLevelStored ∧
    r.1.KeepImage = s.KeepImage ∧
    r.1.IsRenderTarget = s.IsRenderTarget ∧
    r.1.TextureName = s.TextureName ∧
    (mipmapLevel = 0 → r.1.MipImage = s.MipImage ∧ ∃ img, r.1.Image = some img) ∧
    (mipmapLevel ≠ 0 → r.1.Image = s.Image ∧ ∃ img, r.1.MipImage = some img) ∧
    r.2.TextureCache = w.TextureCache ∧
    r.2.texImage = w.texImage ∧
    r.2.calls = w.calls ++
        (if mode ≠ ETLM_WRITE_ONLY then
          lockDownloadCalls Driver s.TextureName w.boundTexture mipmapLevel else []) ∧
    (mode ≠ ETLM_WRITE_ONLY →
      ∃ img, (if mipmapLevel = 0 then r.1.Image else r.1.MipImage) = some img ∧
        ((mipmapLevel ≠ 0 ∨ (Driver.has_GL_MESA_pack_invert &&
            Driver.queryOpenGLFeature IRR_MESA_pack_invert) = true) →
          img.Data = lockReadback Driver s w (lockImage s mipmapLevel) mipmapLevel) ∧
        ((mipmapLevel = 0 ∧ (Driver.has_GL_MESA_pack_invert &&
            Driver.queryOpenGLFeature IRR_MESA_pack_invert) = false) →
          ∃ t, flipRows (lockImage s mipmapLevel)
            (lockReadback Driver s w (lockImage s mipmapLevel) mipmapLevel) =
              Outcome.ok (img.Data, t))) := by
  obtain ⟨a1, a2, a3, a4, a5, a6, _, _, a9, a10⟩ := lockStorage_spec s mipmapLevel
  have hli : lockImage s mipmapLevel = image.getD (lockStorage s mipmapLevel).2 := by
    unfold lockImage
    rw [← himg]
    cases image <;> rfl
  rw [hli]
  unfold lockFetch at h
  dsimp only at h
  by_cases hm : mode = ETLM_WRITE_ONLY
  · rw [if_neg (fun hc => hc hm)] at h
    obtain rfl := Outcome.ok.inj h
    rw [if_neg (fun hc => hc hm), List.append_nil]
    cases image with
    | none => exact ⟨a1, a2, a3, a4, a5, a6, fun h => ⟨(a9 h).1, _, (a9 h).2⟩,
        fun h => ⟨(a10 h).1, _, (a10 h).2⟩, rfl, rfl, rfl, fun hc => absurd hm hc⟩
    | some img =>
      refine ⟨rfl, rfl, rfl, rfl, rfl, rfl, fun h => ⟨rfl, img, ?_⟩, fun h => ⟨rfl, img, ?_⟩,
        rfl, rfl, rfl, fun hc => absurd hm hc⟩
      · rw [if_pos h] at himg
        exact himg.symm
      · rw [if_neg h] at himg
        exact himg.symm
  · rw [if_pos hm] at h
    rw [if_pos hm]
    cases image with
    | none =>
      dsimp only [Option.getD] at h ⊢
      have e := lockReadback_congr Driver s (lockStorage s mipmapLevel).1 w w.calls
        (lockStorage s mipmapLevel).2 mipmapLevel a6
      rw [show ({ w with calls := w.calls } : World) = w from rfl] at e
      by_cases h0 : mipmapLevel = 0
      · simp only [if_pos h0] at h
        generalize hd : lockDownload Driver (lockStorage s mipmapLevel).1 w
          (lockStorage s mipmapLevel).2 mipmapLevel = d at h
        cases d with
        | fault e => cases h
        | ok iw =>
          obtain rfl := Outcome.ok.inj h
          obtain ⟨d1, d2, _, d4, _, _, d7, d8⟩ := lockDownload_spec _ _ _ _ _ iw hd
          rw [e] at d7 d8
          rw [a6] at d1
          rw [if_pos h0]
          exact ⟨a1, a2, a3, a4, a5, a6, fun h => ⟨(a9 h).1, _, rfl⟩,
            fun h => absurd h0 h, d2, d4, d1, fun _ => ⟨iw.1, rfl, d7, d8⟩⟩
      · simp only [if_neg h0] at h
        generalize hd : lockDownload Driver (lockStorage s mipmapLevel).1 w
          (lockStorage s mipmapLevel).2 mipmapLevel = d at h
        cases d with
        | fault e => cases h
        | ok iw =>
          obtain rfl := Outcome.ok.inj h
          obtain ⟨d1, d2, _, d4, _, _, d7, d8⟩ := lockDownload_spec _ _ _ _ _ iw hd
          rw [e] at d7 d8
          rw [a6] at d1
          rw [if_neg h0]
          exact ⟨a1, a2, a3, a4, a5, a6, fun h => absurd h h0,
            fun h => ⟨(a10 h).1, _, rfl⟩, d2, d4, d1, fun _ => ⟨iw.1, rfl, d7, d8⟩⟩
    | some img =>
      dsimp only [Option.getD] at h ⊢
      by_cases h0 : mipmapLevel = 0
      · simp only [if_pos h0] at h
        generalize hd : lockDownload Driver s w img mipmapLevel = d at h
        cases d with
        | fault e => cases h
        | ok iw =>
          obtain rfl := Outcome.ok.inj h
          obtain ⟨d1, d2, _, d4, _, _, d7, d8⟩ := lockDownload_spec _ _ _ _ _ iw hd
          rw [if_pos h0]
          exact ⟨rfl, rfl, rfl, rfl, rfl, rfl, fun h => ⟨rfl, _, rfl⟩,
            fun h => absurd h0 h, d2, d4, d1, fun _ => ⟨iw.1, rfl, d7, d8⟩⟩
      · simp only [if_neg h0] at h
        generalize hd : lockDownload Driver s w img mipmapLevel = d at h
        cases d with
        | fault e => cases h
        | ok iw =>
          obtain rfl := Outcome.ok.inj h
          obtain ⟨d1, d2, _, d4, _, _, d7, d8⟩ := lockDownload_spec _ _ _ _ _ iw hd
          rw [if_neg h0]
          exact ⟨rfl, rfl, rfl, rfl, rfl, rfl, fun h => absurd h h0,
            fun h => ⟨rfl, _, rfl⟩, d2, d4, d1, fun _ => ⟨iw.1, rfl, d7, d8⟩⟩

/-- The fetch block of `lock` returns when the download does. -/
theorem lockFetch_returns (Driver : COpenGLDriver) (s : COpenGLTexture) (w : World)
    (image : Option IImage) (mode : E_TEXTURE_LOCK_MODE) (mipmapLevel : Nat)
    (himg : image = if mipmapLevel = 0 then s.Image else s.MipImage)
    (hb : mode ≠ ETLM_WRITE_ONLY → mipmapLevel = 0 → (Driver.has_GL_MESA_pack_invert &&
      Driver.queryOpenGLFeature IRR_MESA_pack_invert) = false →
      flipReturns (lockImage s mipmapLevel)) :
    ∃ r, lockFetch Driver s w image mode mipmapLevel = Outcome.ok r := by
  have hli : lockImage s mipmapLevel = image.getD (lockStorage s mipmapLevel).2 := by
    unfold lockImage
    rw [← himg]
    cases image <;> rfl
  rw [hli] at hb
  unfold lockFetch
  dsimp only
  by_cases hm : mode = ETLM_WRITE_ONLY
  · rw [if_neg (fun hc => hc hm)]
    exact ⟨_, rfl⟩
  · rw [if_pos hm]
    obtain ⟨iw, hd⟩ := lockDownload_returns Driver
      (match image with
        | some image => (s, image)
        | none => lockStorage s mipmapLevel).1 w
      (match image with
        | some image => (s, image)
        | none => lockStorage s mipmapLevel).2 mipmapLevel
      (by
        intro h0 hinv
        cases image with
        | none => exact hb hm h0 hinv
        | some img => exact hb hm h0 hinv)
    rw [hd]
    exact ⟨_, rfl⟩

/-- The image `lock` downloads into depends on the two images and the two sizes only. -/
theorem lockImage_congr (s s' : COpenGLTexture) (level : Nat) (hI : s'.Image = s.Image)
    (hM : s'.MipImage = s.MipImage) (hS : s'.Size = s.Size)
    (hO : s'.OriginalSize = s.OriginalSize) : lockImage s' level = lockImage s level := by
  unfold lockImage lockStorage
  rw [hI, hM, hS, hO]
  by_cases h : level = 0 <;> simp [h]

/-- What `lock` leaves of a texture that is not compressed, when it returns: the pointer is
not null, the image for the level is there afterwards, the binding cache and the GPU store
are as before, the calls made are `lockCalls`, and after a download the image of the level
holds the bytes read back (flipped at level 0 without the pack-invert extension). -/
theorem lock_spec (Driver : COpenGLDriver) (s : COpenGLTexture) (w : World)
    (mode : E_TEXTURE_LOCK_MODE) (level : Nat) (hc : s.IsCompressed = false)
    (s1 : COpenGLTexture) (w1 : World) (r : Option LockedImage)
    (h : lock Driver s w mode level = Outcome.ok (s1, w1, r)) :
    r = some (if level = 0 then LockedImage.main else LockedImage.mip) ∧
    s1.IsCompressed = false ∧
    s1.ReadOnlyLock = (s.ReadOnlyLock || decide (mode = ETLM_READ_ONLY)) ∧
    s1.MipLevelStored = level ∧
    s1.KeepImage = s.KeepImage ∧
    s1.IsRenderTarget = s.IsRenderTarget ∧
    s1.TextureName = s.TextureName ∧
    (level = 0 → s1.MipImage = s.MipImage ∧ ∃ img, s1.Image = some img) ∧
    (level ≠ 0 → s1.Image = s.Image ∧ ∃ img, s1.MipImage = some img) ∧
    w1.TextureCache = w.TextureCache ∧
    w1.texImage = w.texImage ∧
    w1.calls = w.calls ++ lockCalls Driver s w mode level ∧
    (((if level = 0 then s.Image else s.MipImage).isNone = true ∨ s.IsRenderTarget = true) →
      mode ≠ ETLM_WRITE_ONLY →
      ∃ img, (if level = 0 then s1.Image else s1.MipImage) = some img ∧
        ((level ≠ 0 ∨ (Driver.has_GL_MESA_pack_invert &&
            Driver.queryOpenGLFeature IRR_MESA_pack_invert) = true) →
          img.Data = lockReadback Driver s w (lockImage s level) level) ∧
        ((level = 0 ∧ (Driver.has_GL_MESA_pack_invert &&
            Driver.queryOpenGLFeature IRR_MESA_pack_invert) = false) →
          ∃ t, flipRows (lockImage s level)
            (lockReadback Driver s w (lockImage s level) level) =
              Outcome.ok (img.Data, t))) := by
  unfold lock at h
  rw [if_neg (by simp [hc])] at h
  dsimp only at h
  generalize hsw : lockAutoMipmap Driver _ w level = sw at h
  obtain ⟨b, hb⟩ := lockAutoMipmap_state Driver
    { s with ReadOnlyLock := s.ReadOnlyLock || decide (mode = ETLM_READ_ONLY),
             MipLevelStored := level } w level
  have hw := lockAutoMipmap_world Driver
    { s with ReadOnlyLock := s.ReadOnlyLock || decide (mode = ETLM_READ_ONLY),
             MipLevelStored := level } w level
  rw [hsw] at hb hw
  obtain ⟨sA, wA⟩ := sw
  dsimp only at hb hw h
  subst hb hw
  unfold lockCalls
  by_cases hcond : (if level = 0 then s.Image else s.MipImage).isNone = true ∨
      s.IsRenderTarget = true
  · rw [if_pos hcond] at h
    generalize hf : lockFetch Driver _ _ _ mode level = fr at h
    cases fr with
    | fault e => cases h
    | ok fr =>
      have hinj := Outcome.ok.inj h
      cases hinj
      obtain ⟨f1, f2, f3, f4, f5, f6, f7, f8, f9, f10, f11, f12⟩ := lockFetch_spec Driver
        { s with ReadOnlyLock := s.ReadOnlyLock || decide (mode = ETLM_READ_ONLY),
                 MipLevelStored := level, AutomaticMipmapUpdate := b }
        { w with calls := w.calls ++
            (if (!(s.ReadOnlyLock || decide (mode = ETLM_READ_ONLY)) ∧ level ≠ 0) ∧
              (Driver.has_GL_SGIS_generate_mipmap &&
                Driver.queryFeature EVDF_MIP_MAP_AUTO_UPDATE) = true
            then [GLCall.glTexParameteri GL_TEXTURE_2D GL_GENERATE_MIPMAP GL_FALSE] else []) }
        (if level = 0 then s.Image else s.MipImage) mode level rfl fr hf
      have hli : lockImage
          { s with ReadOnlyLock := s.ReadOnlyLock || decide (mode = ETLM_READ_ONLY),
                   MipLevelStored := level, AutomaticMipmapUpdate := b } level =
          lockImage s level := lockImage_congr _ _ level rfl rfl rfl rfl
      rw [hli, lockReadback_congr Driver s
        { s with ReadOnlyLock := s.ReadOnlyLock || decide (mode = ETLM_READ_ONLY),
                 MipLevelStored := level, AutomaticMipmapUpdate := b }
        w _ (lockImage s level) level rfl] at f12
      refine ⟨rfl, f1.trans hc, f2, f3, f4, f5, f6, f7, f8, f9, f10, ?_, fun _ hm => f12 hm⟩
      rw [f11, List.append_assoc]
      congr 2
      by_cases hm : mode = ETLM_WRITE_ONLY
      · have hn : ¬ (((if level = 0 then s.Image else s.MipImage).isNone = true ∨
            s.IsRenderTarget = true) ∧ mode ≠ ETLM_WRITE_ONLY) := fun h => h.2 hm
        have hn' : ¬ (mode ≠ ETLM_WRITE_ONLY) := fun h => h hm
        rw [if_neg hn, if_neg hn']
      · have hp : ((if level = 0 then s.Image else s.MipImage).isNone = true ∨
            s.IsRenderTarget = true) ∧ mode ≠ ETLM_WRITE_ONLY := ⟨hcond, hm⟩
        have hp' : mode ≠ ETLM_WRITE_ONLY := hm
        rw [if_pos hp, if_pos hp']
  · rw [if_neg hcond] at h
    have hinj := Outcome.ok.inj h
    cases hinj
    have hsome : ∃ img, (if level = 0 then s.Image else s.MipImage) = some img := by
      cases h : (if level = 0 then s.Image else s.MipImage) with
      | none => exact absurd (Or.inl (by rw [h]; rfl)) hcond
      | some img => exact ⟨img, rfl⟩
    obtain ⟨img, himg⟩ := hsome
    refine ⟨rfl, hc, rfl, rfl, rfl, rfl, rfl, fun h => ⟨rfl, img, ?_⟩,
      fun h => ⟨rfl, img, ?_⟩, rfl, rfl, ?_, fun hx => absurd hx hcond⟩
    · rw [if_pos h] at himg
      exact himg
    · rw [if_neg h] at himg
      exact himg
    · have : ¬ (((if level = 0 then s.Image else s.MipImage).isNone = true ∨
          s.IsRenderTarget = true) ∧ mode ≠ ETLM_WRITE_ONLY) := fun h => hcond h.1
      rw [if_neg this, List.append_nil]

/-- `lock` returns on a texture that is not compressed when the download does: in
write-only mode, at a mip level, with the pack-invert extension, or for an image of the
level whose height and pitch keep the flip loop finite. -/
theorem lock_returns (Driver : COpenGLDriver) (s : COpenGLTexture) (w : World)
    (mode : E_TEXTURE_LOCK_MODE) (level : Nat) (hc : s.IsCompressed = false)
    (hb : mode ≠ ETLM_WRITE_ONLY → level = 0 → (Driver.has_GL_MESA_pack_invert &&
      Driver.queryOpenGLFeature IRR_MESA_pack_invert) = false →
      flipReturns (lockImage s level)) :
    ∃ s1 w1, lock Driver s w mode level =
      Outcome.ok (s1, w1, some (if level = 0 then LockedImage.main else LockedImage.mip)) := by
  unfold lock
  rw [if_neg (by simp [hc])]
  dsimp only
  generalize hsw : lockAutoMipmap Driver _ w level = sw
  obtain ⟨b, hb'⟩ := lockAutoMipmap_state Driver
    { s with ReadOnlyLock := s.ReadOnlyLock || decide (mode = ETLM_READ_ONLY),
             MipLevelStored := level } w level
  rw [hsw] at hb'
  obtain ⟨sA, wA⟩ := sw
  dsimp only at hb' ⊢
  subst hb'
  by_cases hcond : (if level = 0 then s.Image else s.MipImage).isNone = true ∨
      s.IsRenderTarget = true
  · rw [if_pos hcond]
    have hli : lockImage
        { s with ReadOnlyLock := s.ReadOnlyLock || decide (mode = ETLM_READ_ONLY),
                 MipLevelStored := level, AutomaticMipmapUpdate := b } level =
        lockImage s level := lockImage_congr _ _ level rfl rfl rfl rfl
    obtain ⟨fr, hf⟩ := lockFetch_returns Driver
      { s with ReadOnlyLock := s.ReadOnlyLock || decide (mode = ETLM_READ_ONLY),
               MipLevelStored := level, AutomaticMipmapUpdate := b } wA
      (if level = 0 then s.Image else s.MipImage) mode level rfl (by rw [hli]; exact hb)
    rw [hf]
    exact ⟨_, _, rfl⟩
  · rw [if_neg hcond]
    exact ⟨_, _, rfl⟩

/-- `uploadTexture` as an update (`newTexture = false`) of a texture that is not compressed:
one `glTexSubImage2D` of the level's image, with the texture bound through slot 0 of the
cache for the call and the previous texture put back afterwards. -/
theorem uploadTexture_update (ops : ImageOps) (Driver : COpenGLDriver) (s : COpenGLTexture)
    (w : World) (mipmapData : Option (List Nat)) (level : Nat) (image : IImage)
    (hc : s.IsCompressed = false)
    (himg : (if level ≠ 0 then s.MipImage else s.Image) = some image) :
    uploadTexture ops Driver s w false mipmapData level =
      Outcome.ok
        ({ s with
            PixelFormat := (getOpenGLFormatAndParametersFromColorFormat Driver
              s.ColorFormat).colorformat,
            PixelType := (getOpenGLFormatAndParametersFromColorFormat Driver
              s.ColorFormat).type },
          ((w.TextureCache_set 0 (some s.handle)).glTexSubImage2D level image.Size.Width
            image.Size.Height
            (getOpenGLFormatAndParametersFromColorFormat Driver s.ColorFormat).colorformat
            (getOpenGLFormatAndParametersFromColorFormat Driver s.ColorFormat).type
            image.Data).TextureCache_set 0 (w.TextureCache 0)) := by
  unfold uploadTexture
  rw [himg]
  simp [uploadImage, hc, COpenGLTexture.handle]

/-- `unlock` on a texture that is not compressed and holds the image of the level stored by
`lock` (with no mip image left over when that level is 0): it returns, clears the read-only
flag, holds no mip image afterwards, keeps slot 0 of the binding cache, and makes exactly one
call, the `glTexSubImage2D` of the stored level, unless the lock was read-only, when it makes
none. -/
theorem unlock_spec (ops : ImageOps) (Driver : COpenGLDriver) (s : COpenGLTexture) (w : World)
    (img : IImage) (hc : s.IsCompressed = false)
    (himg : (if s.MipLevelStored ≠ 0 then s.MipImage else s.Image) = some img)
    (hmip : s.MipLevelStored = 0 → s.MipImage = none) :
    ∃ s2 w2, unlock ops Driver s w = Outcome.ok (s2, w2) ∧
      s2.ReadOnlyLock = false ∧ s2.MipImage = none ∧
      s2.Image = (if s.MipLevelStored ≠ 0 then s.Image
        else if s.KeepImage then s.Image else none) ∧
      s2.IsCompressed = false ∧ s2.KeepImage = s.KeepImage ∧
      s2.IsRenderTarget = s.IsRenderTarget ∧ s2.TextureName = s.TextureName ∧
      w2.TextureCache 0 = w.TextureCache 0 ∧
      w2.calls = w.calls ++
        (if s.ReadOnlyLock then []
         else [GLCall.glTexSubImage2D s.MipLevelStored img.Size.Width img.Size.Height
           (getOpenGLFormatAndParametersFromColorFormat Driver s.ColorFormat).colorformat
           (getOpenGLFormatAndParametersFromColorFormat Driver s.ColorFormat).type
           img.Data]) ∧
      (s.ReadOnlyLock = false → w2.texImage s.TextureName s.MipLevelStored = img.Data) := by
  unfold unlock
  rw [if_neg (by simp [hc])]
  have hsel : (if s.MipImage.isSome = true then s.MipImage else s.Image) = some img := by
    by_cases h0 : s.MipLevelStored = 0
    · rw [hmip h0]
      rw [if_neg (fun h => h h0)] at himg
      simpa using himg
    · rw [if_pos h0] at himg
      rw [himg]
      rfl
  rw [hsel]
  dsimp only
  cases hro : s.ReadOnlyLock with
  | true =>
    simp only [Bool.not_true, Bool.false_eq_true, if_false, if_true, List.append_nil]
    refine ⟨_, _, rfl, ?_, ?_, ?_, ?_, ?_, ?_, ?_, rfl, rfl, fun h => by cases h⟩
    all_goals
      by_cases h0 : s.MipLevelStored = 0
      · have hm := hmip h0
        cases hk : s.KeepImage <;> cases hI : s.Image <;> simp [hm, h0, hk, hI, hc]
      · rw [if_pos h0] at himg
        cases hk : s.KeepImage <;> cases hI : s.Image <;> simp [himg, h0, hk, hI, hc]
  | false =>
    simp only [Bool.not_false, if_true, Bool.false_eq_true, if_false]
    rw [uploadTexture_update ops Driver s w none s.MipLevelStored img hc himg]
    dsimp only
    refine ⟨_, _, rfl, ?_, ?_, ?_, ?_, ?_, ?_, ?_, ?_, ?_, ?_⟩
    iterate 7
      by_cases h0 : s.MipLevelStored = 0
      · have hm := hmip h0
        cases hk : s.KeepImage <;> cases hI : s.Image <;> simp [hm, h0, hk, hI, hc]
      · rw [if_pos h0] at himg
        cases hk : s.KeepImage <;> cases hI : s.Image <;> simp [himg, h0, hk, hI, hc]
    · simp [World.TextureCache_set]
    · simp [World.TextureCache_set, World.glTexSubImage2D, World.emit, World.store]
    · intro _
      simp [World.TextureCache_set, World.glTexSubImage2D, World.emit, World.store,
        COpenGLTexture.handle]

/-- `lock` makes no upload. -/
theorem lockCalls_no_upload (Driver : COpenGLDriver) (s : COpenGLTexture) (w : World)
    (mode : E_TEXTURE_LOCK_MODE) (level : Nat) :
    (lockCalls Driver s w mode level).filter GLCall.isUpload = [] := by
  unfold lockCalls lockDownloadCalls
  dsimp only
  split_ifs <;> simp [GLCall.isUpload]

/-- `lock` of level 0 on a texture that holds its level-0 image and is neither compressed
nor a render target hands out that image and touches nothing else. -/
theorem lock_kept (Driver : COpenGLDriver) (s : COpenGLTexture) (w : World)
    (mode : E_TEXTURE_LOCK_MODE) (img : IImage) (hc : s.IsCompressed = false)
    (hrt : s.IsRenderTarget = false) (hI : s.Image = some img) :
    lock Driver s w mode 0 =
      Outcome.ok
        ({ s with ReadOnlyLock := s.ReadOnlyLock || decide (mode = ETLM_READ_ONLY),
                  MipLevelStored := 0 }, w, some LockedImage.main) := by
  simp [lock, lockAutoMipmap, hc, hrt, hI]

/-- C9: on a texture that is not compressed, has the read-only flag clear and holds no mip
image (as a constructor or a previous `unlock` leaves it), a `lock(mode, level)` that
returns hands out the buffer of the level and makes no upload; the following `unlock()`
returns, and the only upload the two calls make is one `glTexSubImage2D` of the level
`level` with the locked image when the mode is not read-only, and none when it is;
afterwards the read-only flag is clear and no mip image is held.  And `lock` does return
whenever the row flip it may run is finite (always at a mip level, in write-only mode and
with the pack-invert extension). -/
theorem lock_unlock_uploads_level (ops : ImageOps) (Driver : COpenGLDriver)
    (s : COpenGLTexture) (w : World) (mode : E_TEXTURE_LOCK_MODE) (level : Nat)
    (hc : s.IsCompressed = false) (hro : s.ReadOnlyLock = false) (hmip : s.MipImage = none) :
    (∀ (s1 : COpenGLTexture) (w1 : World) (r : Option LockedImage),
      lock Driver s w mode level = Outcome.ok (s1, w1, r) →
      r = some (if level = 0 then LockedImage.main else LockedImage.mip) ∧
      ∃ (img : IImage) (s2 : COpenGLTexture) (w2 : World),
        s1.buffer (if level = 0 then LockedImage.main else LockedImage.mip) = some img.Data ∧
        unlock ops Driver s1 w1 = Outcome.ok (s2, w2) ∧
        w1.calls.filter GLCall.isUpload = w.calls.filter GLCall.isUpload ∧
        w2.calls = w1.calls ++
          (if mode = ETLM_READ_ONLY then []
           else [GLCall.glTexSubImage2D level img.Size.Width img.Size.Height
             (getOpenGLFormatAndParametersFromColorFormat Driver s1.ColorFormat).colorformat
             (getOpenGLFormatAndParametersFromColorFormat Driver s1.ColorFormat).type
             img.Data]) ∧
        s2.ReadOnlyLock = false ∧ s2.MipImage = none) ∧
    ((mode ≠ ETLM_WRITE_ONLY → level = 0 → (Driver.has_GL_MESA_pack_invert &&
        Driver.queryOpenGLFeature IRR_MESA_pack_invert) = false →
        flipReturns (lockImage s level)) →
      ∃ s1 w1, lock Driver s w mode level =
        Outcome.ok (s1, w1,
          some (if level = 0 then LockedImage.main else LockedImage.mip))) := by
  refine ⟨?_, lock_returns Driver s w mode level hc⟩
  intro s1 w1 r hl
  obtain ⟨h1, h2, h3, h4, _, _, _, h8, h9, _, _, h12, _⟩ :=
    lock_spec Driver s w mode level hc s1 w1 r hl
  refine ⟨h1, ?_⟩
  have himg : ∃ img, (if s1.MipLevelStored ≠ 0 then s1.MipImage else s1.Image) = some img ∧
      s1.buffer (if level = 0 then LockedImage.main else LockedImage.mip) =
        some img.Data := by
    rw [h4]
    by_cases h0 : level = 0
    · obtain ⟨_, img, hi⟩ := h8 h0
      rw [if_neg (fun h => h h0), if_pos h0]
      exact ⟨img, hi, by simp [COpenGLTexture.buffer, hi]⟩
    · obtain ⟨_, img, hi⟩ := h9 h0
      rw [if_pos h0, if_neg h0]
      exact ⟨img, hi, by simp [COpenGLTexture.buffer, hi]⟩
  obtain ⟨img, hi, hbuf⟩ := himg
  obtain ⟨s2, w2, u1, u2, u3, _, _, _, _, _, _, u10, _⟩ :=
    unlock_spec ops Driver s1 w1 img
      h2 hi (fun h0 => by rw [h4] at h0; rw [(h8 h0).1]; exact hmip)
  refine ⟨img, s2, w2, hbuf, u1, ?_, ?_, u2, u3⟩
  · rw [h12, List.filter_append, lockCalls_no_upload, List.append_nil]
  · rw [u10, h3, h4, hro]
    cases mode <;> simp

/-- A read-write lock of mip level 1 of the 4 x 2 texture returns and, followed by `unlock`,
uploads level 1 once through `glTexSubImage2D`. -/
theorem lock_unlock_uploads_level_witness :
    ∃ (s1 : COpenGLTexture) (w1 : World),
      lock plainDriver mipTexture emptyWorld ETLM_READ_WRITE 1 =
        Outcome.ok (s1, w1,
          some (if (1 : Nat) = 0 then LockedImage.main else LockedImage.mip)) ∧
      ∃ (img : IImage) (s2 : COpenGLTexture) (w2 : World),
        s1.buffer (if (1 : Nat) = 0 then LockedImage.main else LockedImage.mip) =
          some img.Data ∧
        unlock noOps plainDriver s1 w1 = Outcome.ok (s2, w2) ∧
        w1.calls.filter GLCall.isUpload = emptyWorld.calls.filter GLCall.isUpload ∧
        w2.calls = w1.calls ++
          (if ETLM_READ_WRITE = ETLM_READ_ONLY then []
           else [GLCall.glTexSubImage2D 1 img.Size.Width img.Size.Height
             (getOpenGLFormatAndParametersFromColorFormat plainDriver
               s1.ColorFormat).colorformat
             (getOpenGLFormatAndParametersFromColorFormat plainDriver s1.ColorFormat).type
             img.Data]) ∧
        s2.ReadOnlyLock = false ∧ s2.MipImage = none :=
  let ⟨s1, w1, hl⟩ :=
    (lock_unlock_uploads_level noOps plainDriver mipTexture emptyWorld ETLM_READ_WRITE 1
      rfl rfl rfl).2 (fun _ h => absurd h (by decide))
  ⟨s1, w1, hl,
    ((lock_unlock_uploads_level noOps plainDriver mipTexture emptyWorld ETLM_READ_WRITE 1
      rfl rfl rfl).1 s1 w1 _ hl).2⟩

/-- C3 (as stated, refuted): on the 1 x 2 render target, after a read-write lock of level 0,
writing the rows (1,2,3,4) and (5,6,7,8) and unlocking, a read-only lock of level 0 returns
the two rows in the opposite order. -/
theorem writeThenRead_renderTarget_counterexample :
    renderTarget1x2.1.IsRenderTarget = true ∧ renderTarget1x2.1.IsCompressed = false ∧
    renderTarget1x2.1.ReadOnlyLock = false ∧ renderTarget1x2.1.MipImage = none ∧
    writeThenRead noOps plainDriver renderTarget1x2.1 renderTarget1x2.2 ETLM_READ_WRITE
      [1, 2, 3, 4, 5, 6, 7, 8] = some [5, 6, 7, 8, 1, 2, 3, 4] := by
  decide

/-- C3 (amended): on a standard texture (not compressed, not a render target) that keeps its
level-0 CPU image, in the unlocked state, after a lock of level 0 in a write mode, writing
arbitrary data into the returned buffer, and unlock, the GPU store of level 0 holds the
written data and a read-only lock of level 0 returns a buffer that holds exactly the written
data. -/
theorem writeThenRead_kept_image (ops : ImageOps) (Driver : COpenGLDriver)
    (s : COpenGLTexture) (w : World) (mode : E_TEXTURE_LOCK_MODE) (data : List Nat)
    (img : IImage) (hc : s.IsCompressed = false) (hrt : s.IsRenderTarget = false)
    (hI : s.Image = some img) (hk : s.KeepImage = true) (hro : s.ReadOnlyLock = false)
    (hmip : s.MipImage = none) (hmode : mode ≠ ETLM_READ_ONLY) :
    writeThenRead ops Driver s w mode data = some data ∧
    ∃ s1 w1 s2 w2,
      lock Driver s w mode 0 = Outcome.ok (s1, w1, some LockedImage.main) ∧
      unlock ops Driver (s1.write LockedImage.main data) w1 = Outcome.ok (s2, w2) ∧
      w2.texImage s.TextureName 0 = data := by
  obtain ⟨s2, w2, u1, u2, u3, u4, u5, u6, u7, _, _, _, u11⟩ := unlock_spec ops Driver
    (COpenGLTexture.write
      { s with ReadOnlyLock := s.ReadOnlyLock || decide (mode = ETLM_READ_ONLY),
               MipLevelStored := 0 } LockedImage.main data) w
    { img with Data := data } (by simp [COpenGLTexture.write, hc])
    (by simp [COpenGLTexture.write, hI]) (fun _ => by simp [COpenGLTexture.write, hmip])
  have hI2 : s2.Image = some { img with Data := data } := by
    rw [u4]
    simp [COpenGLTexture.write, hI, hk]
  have hrt2 : s2.IsRenderTarget = false := by
    rw [u7]
    simpa [COpenGLTexture.write] using hrt
  refine ⟨?_, _, _, s2, w2, lock_kept Driver s w mode img hc hrt hI, u1, ?_⟩
  · unfold writeThenRead
    simp only [lock_kept Driver s w mode img hc hrt hI, u1,
      lock_kept Driver s2 w2 ETLM_READ_ONLY _ u5 hrt2 hI2]
    simp [COpenGLTexture.buffer, hI2]
  · have h := u11 (by simp [COpenGLTexture.write, hro, hmode])
    simpa [COpenGLTexture.write] using h

/-- The round trip on the 4 x 2 texture that keeps its image. -/
theorem writeThenRead_kept_image_witness :
    writeThenRead noOps plainDriver mipTexture emptyWorld ETLM_READ_WRITE [1, 2, 3] =
      some [1, 2, 3] ∧
    ∃ s1 w1 s2 w2,
      lock plainDriver mipTexture emptyWorld ETLM_READ_WRITE 0 =
        Outcome.ok (s1, w1, some LockedImage.main) ∧
      unlock noOps plainDriver (s1.write LockedImage.main [1, 2, 3]) w1 =
        Outcome.ok (s2, w2) ∧
      w2.texImage mipTexture.TextureName 0 = [1, 2, 3] :=
  writeThenRead_kept_image noOps plainDriver mipTexture emptyWorld ETLM_READ_WRITE [1, 2, 3]
    image4x2 rfl rfl rfl rfl rfl rfl (by decide)

/-! ## regenerateMipMapLevels without a CPU image -/

/-- Without mipmap data `regenerateMipMapLevels` returns on a texture that holds no CPU
image: the manual loop is not entered. -/
theorem regenerateMipMapLevels_null_data_no_image (ops : ImageOps) (s : COpenGLTexture)
    (w : World) (hI : s.Image = none) :
    ∃ w', regenerateMipMapLevels ops s w none = Outcome.ok w' := by
  unfold regenerateMipMapLevels
  rw [hI]
  cases s.HasMipMaps <;> cases s.IsCompressed <;> cases s.AutomaticMipmapUpdate <;>
    cases s.MipmapLegacyMode <;> exact ⟨_, rfl⟩

/-- C12 (code bug): the image constructor turns a 4 x 4 DXT1 image that carries its mip
levels into a compressed texture with mipmaps that holds no CPU image; called on it with
mipmap data, `regenerateMipMapLevels` enters the manual loop and dereferences the null
image. -/
theorem regenerateMipMapLevels_data_without_image :
    (COpenGLTexture.ofImage noOps dxtMipDriver 1 emptyWorld (some dxtMipImage) none).get?.map
        (fun r => (r.1.HasMipMaps, r.1.IsCompressed, r.1.Image.isNone,
          (regenerateMipMapLevels noOps r.1 r.2 (some (List.range 16))).fault?)) =
      some (true, true, true, some Fault.nullImage) := by
  decide

/-! ## getImageValues on a very thin image -/

/-- C13 (code bug): for a 5000 x 1 image and a maximum texture size of 1024 `getImageValues`
leaves the original size 1024 x 0: the ratio is 5000 and the clamped height is the integer
part of 1024 / 5000 rounded to `f32`, which is 0. -/
theorem getImageValues_thin_image_zero_height :
    (getImageValues plainDriver (COpenGLTexture.init 1 true true)
      (some thinImage)).OriginalSize = { Width := 1024, Height := 0 } := by
  rw [getImageValues_OriginalSize _ _ _ (by decide) (by decide)]
  have hr : f32 (f32 ((5000 : ℕ) : ℚ) / f32 ((1 : ℕ) : ℚ)) = 5000 := by
    rw [f32_natCast 5000 (by norm_num), f32_natCast 1 (by norm_num)]
    have h := f32_natCast 5000 (by norm_num)
    simpa using h
  have hq : f32 (f32 ((1024 : ℕ) : ℚ) / 5000) ≤ 1 / 2 := by
    rw [f32_natCast 1024 (by norm_num)]
    have h2 : f32 (1 / 2) = 1 / 2 := f32_of_scaled_int _ (by norm_num) (2 ^ 23) (by
      rw [log_eq_of_bounds (1 / 2) (-1) (by norm_num) (by norm_num) (by norm_num)]
      norm_num)
    rw [← h2]
    exact f32_mono (by norm_num)
  have hfl : ⌊f32 (f32 ((1024 : ℕ) : ℚ) / 5000)⌋₊ = 0 :=
    Nat.floor_eq_zero.2 (lt_of_le_of_lt hq (by norm_num))
  show clampOriginalSize 1024 { Width := 5000, Height := 1 } = _
  unfold clampOriginalSize
  simp only [hr, hfl]
  norm_num

end video
end irr
